import Mathlib

/-!
Verification development for the Sanity-to-Strapi migration CLI.

The development shallowly embeds the two core modules of the repository:

* lib/core/schema-generator.js (class DynamicSchemaGenerator): schema
  recovery, relationship inference and Strapi schema conversion;
* lib/core/content-migrator.js (class UniversalContentMigrator): schema-aware
  content transformation, asset migration and deferred relationship
  resolution.

JavaScript Maps are modelled as insertion-ordered association lists,
JavaScript runtime values as the inductive type JsValue (JS null and
undefined are merged into JsValue.null: the embedded code never distinguishes
them), and JavaScript exceptions as Except String.  File-system and HTTP
effects are passed in as explicit function parameters or state values.
-/

/-! ## Association-list model of JavaScript Map and object -/

/-- Lookup in an insertion-ordered association list (JS Map.get / obj[k]). -/
def lookupKV {α β : Type} [DecidableEq α] : List (α × β) → α → Option β
  | [], _ => none
  | (k, v) :: t, a => if a = k then some v else lookupKV t a

/-- Insert-or-replace preserving insertion order (JS Map.set / obj[k] = v). -/
def setKV {α β : Type} [DecidableEq α] : List (α × β) → α → β → List (α × β)
  | [], a, b => [(a, b)]
  | (k, v) :: t, a, b => if k = a then (a, b) :: t else (k, v) :: setKV t a b

/-- Remove a key (JS delete obj[k]). -/
def eraseKV {α β : Type} [DecidableEq α] : List (α × β) → α → List (α × β)
  | [], _ => []
  | (k, v) :: t, a => if k = a then t else (k, v) :: eraseKV t a

/-! ## JavaScript runtime values -/

/-- A JavaScript runtime value.  JS null and undefined are both modelled as
JsValue.null; numbers as integers (the embedded code only handles ids,
dimensions and heading levels). -/
inductive JsValue where
  | null
  | bool (b : Bool)
  | num (n : Int)
  | str (s : String)
  | arr (items : List JsValue)
  | obj (props : List (String × JsValue))

/-- JS property access v[key].  Accessing a property of null/undefined throws
a TypeError; a missing property of an object, or any property of a primitive
or array in the cases exercised here, yields undefined (JsValue.null). -/
def getProp (v : JsValue) (key : String) : Except String JsValue :=
  match v with
  | .null => .error ("Cannot read properties of null (reading " ++ key ++ ")")
  | .obj props => .ok ((lookupKV props key).getD .null)
  | _ => .ok .null

/-- JS truthiness. -/
def truthy : JsValue → Bool
  | .null => false
  | .bool b => b
  | .num n => decide (n ≠ 0)
  | .str s => decide (s ≠ "")
  | .arr _ => true
  | .obj _ => true

/-- JS strict equality (===) restricted to the values of this model.
Primitive values compare structurally; two object or array values compare by
reference and are modelled as unequal (the embedded code only ever compares
primitives with ===). -/
def jsStrictEq : JsValue → JsValue → Bool
  | .null, .null => true
  | .bool a, .bool b => a == b
  | .num a, .num b => a == b
  | .str a, .str b => a == b
  | _, _ => false

/-- JS Array.prototype.includes (SameValueZero, which coincides with strict
equality for the values appearing here). -/
def jsIncludes (l : List JsValue) (v : JsValue) : Bool :=
  l.any (fun x => jsStrictEq x v)

/-- JS a || b for the value-producing or-else idiom. -/
def jsOr (a b : JsValue) : JsValue :=
  if truthy a then a else b

/-- String rendering used for template interpolation of ids. -/
def jsToString : JsValue → String
  | .null => "null"
  | .bool b => if b then "true" else "false"
  | .num n => toString n
  | .str s => s
  | .arr _ => ""
  | .obj _ => "[object Object]"

/-! ## lib/core/schema-generator.js — class DynamicSchemaGenerator -/

namespace DynamicSchemaGenerator

/-- A target descriptor inside a reference field's to: [...] list. -/
structure SanityToRef where
  type : String
deriving Repr, DecidableEq

/-- An item descriptor inside an array field's of: [...] list, as produced by
extractArrayOf (a type tag, an optional to-list for reference items, and an
optional hotspot option for image items). -/
structure SanityArrayItem where
  type : String
  «to» : Option (List SanityToRef) := none
  hotspot : Option Bool := none
deriving Repr, DecidableEq

/-- Validation rules extracted by extractValidation. -/
structure SanityValidation where
  required : Option Bool := none
  min : Option Nat := none
  max : Option Nat := none
deriving Repr, DecidableEq

/-- One {title, value} pair of an options.list. -/
structure SanityOptionItem where
  title : String
  value : String
deriving Repr, DecidableEq

/-- Options extracted by extractOptions. -/
structure SanityOptions where
  source : Option String := none
  list : Option (List SanityOptionItem) := none
deriving Repr, DecidableEq

/-- A nested field of an object field, as produced by extractNestedFields. -/
structure SanityNestedField where
  name : String
  type : String
  title : Option String := none
deriving Repr, DecidableEq

/-- A parsed field, as produced by parseFieldContent. -/
structure SanityField where
  name : String
  type : String
  title : Option String := none
  validation : Option SanityValidation := none
  options : Option SanityOptions := none
  «of» : Option (List SanityArrayItem) := none
  «to» : Option (List SanityToRef) := none
  fields : Option (List SanityNestedField) := none
deriving Repr, DecidableEq

/-- A parsed schema file, as produced by extractSchemaFromContent. -/
structure SchemaInfo where
  name : String
  type : String
  title : String
  fields : List SanityField
deriving Repr, DecidableEq

/-- One detected reference edge: an entry of the allReferences lists. -/
structure SanityRef where
  fieldName : String
  targetType : String
  isArray : Bool
deriving Repr, DecidableEq

/-- JS field.to?.[0]?.type (undefined when the chain breaks off). -/
def firstToType : Option (List SanityToRef) → Option String
  | some (t :: _) => some t.type
  | _ => none

/-- extractReferencesFromField: push a reference edge for a single reference
field with a truthy first target type, or for an array field whose of-list
contains a reference item with a truthy first target type. -/
def extractReferencesFromField (field : SanityField) (references : List SanityRef) :
    List SanityRef :=
  if field.type = "reference" then
    match firstToType field.«to» with
    | some ty => if ty ≠ "" then references ++ [⟨field.name, ty, false⟩] else references
    | none => references
  else if field.type = "array" then
    match field.«of» with
    | some items =>
      let referenceItems := items.filter (fun it => decide (it.type = "reference"))
      match referenceItems with
      | first :: _ =>
        match firstToType first.«to» with
        | some ty => if ty ≠ "" then references ++ [⟨field.name, ty, true⟩] else references
        | none => references
      | [] => references
    | none => references
  else references

/-- The references list collected for one schema's fields. -/
def fieldRefs (fields : List SanityField) : List SanityRef :=
  fields.foldl (fun references f => extractReferencesFromField f references) []

/-- collectAllReferences: build the allReferences map (only schemas with a
non-empty references list get an entry). -/
def collectAllReferences (schemas : List (String × SchemaInfo)) :
    List (String × List SanityRef) :=
  schemas.foldl
    (fun allReferences p =>
      let references := fieldRefs p.2.fields
      if references.length > 0 then setKV allReferences p.1 references else allReferences)
    []

/-- The default JS Array.prototype.sort comparison on strings: lexicographic
by code unit (modelled on the character list; identical for the names in
play). -/
def jsSortLe : List Char → List Char → Bool
  | [], _ => true
  | _ :: _, [] => false
  | x :: xs, y :: ys => if x = y then jsSortLe xs ys else decide (x < y)

/-- getRelationshipKey: JS [schemaA, schemaB].sort().join("-"). -/
def getRelationshipKey (schemaA schemaB : String) : String :=
  if jsSortLe schemaA.toList schemaB.toList then schemaA ++ "-" ++ schemaB
  else schemaB ++ "-" ++ schemaA

/-- The per-pair accumulator object of analyzeBidirectionalRelationships. -/
structure PairRelationship where
  schemaA : String
  schemaB : String
  aToB : Option SanityRef
  bToA : Option SanityRef
deriving Repr, DecidableEq

/-- One iteration of the reference-grouping loop of
analyzeBidirectionalRelationships: create the pair entry on first sight
(the creating schema becomes schemaA) and record the edge on the matching
side. -/
def addReferenceToMap (relationshipMap : List (String × PairRelationship))
    (fromSchema : String) (ref : SanityRef) : List (String × PairRelationship) :=
  let relationshipKey := getRelationshipKey fromSchema ref.targetType
  match lookupKV relationshipMap relationshipKey with
  | none =>
      setKV relationshipMap relationshipKey
        ⟨fromSchema, ref.targetType, some ref, none⟩
  | some relationship =>
      if fromSchema = relationship.schemaA then
        setKV relationshipMap relationshipKey { relationship with aToB := some ref }
      else
        setKV relationshipMap relationshipKey { relationship with bToA := some ref }

/-- The grouping pass of analyzeBidirectionalRelationships. -/
def buildRelationshipMap (allReferences : List (String × List SanityRef)) :
    List (String × PairRelationship) :=
  allReferences.foldl
    (fun relationshipMap p =>
      p.2.foldl (fun m ref => addReferenceToMap m p.1 ref) relationshipMap)
    []

/-- The processed-relationship store: schemaName -> fieldName -> relation
config (the config objects are the JS object literals built by the add*
methods, modelled as JsValue). -/
abbrev RelationshipsMap := List (String × List (String × JsValue))

/-- storeProcessedRelationship. -/
def storeProcessedRelationship (relationships : RelationshipsMap)
    (fromSchema fieldName : String) (relationshipConfig : JsValue) : RelationshipsMap :=
  let inner := (lookupKV relationships fromSchema).getD []
  setKV relationships fromSchema (setKV inner fieldName relationshipConfig)

/-- addManyToManyRelationship. -/
def addManyToManyRelationship (relationships : RelationshipsMap)
    (schemaA fieldA schemaB fieldB : String) : RelationshipsMap :=
  let r1 := storeProcessedRelationship relationships schemaA fieldA
    (.obj [("type", .str "relation"), ("relation", .str "manyToMany"),
           ("target", .str ("api::" ++ schemaB ++ "." ++ schemaB)),
           ("mappedBy", .str fieldB)])
  storeProcessedRelationship r1 schemaB fieldB
    (.obj [("type", .str "relation"), ("relation", .str "manyToMany"),
           ("target", .str ("api::" ++ schemaA ++ "." ++ schemaA)),
           ("inversedBy", .str fieldA)])

/-- addOneToManyRelationship (oneSchema is the "one" side, manySchema the
"many" side, which gets a manyToOne config). -/
def addOneToManyRelationship (relationships : RelationshipsMap)
    (oneSchema oneField manySchema manyField : String) : RelationshipsMap :=
  let r1 := storeProcessedRelationship relationships oneSchema oneField
    (.obj [("type", .str "relation"), ("relation", .str "oneToMany"),
           ("target", .str ("api::" ++ manySchema ++ "." ++ manySchema)),
           ("mappedBy", .str manyField)])
  storeProcessedRelationship r1 manySchema manyField
    (.obj [("type", .str "relation"), ("relation", .str "manyToOne"),
           ("target", .str ("api::" ++ oneSchema ++ "." ++ oneSchema)),
           ("inversedBy", .str oneField)])

/-- addBidirectionalOneToOneRelationship. -/
def addBidirectionalOneToOneRelationship (relationships : RelationshipsMap)
    (schemaA fieldA schemaB fieldB : String) : RelationshipsMap :=
  let r1 := storeProcessedRelationship relationships schemaA fieldA
    (.obj [("type", .str "relation"), ("relation", .str "oneToOne"),
           ("target", .str ("api::" ++ schemaB ++ "." ++ schemaB)),
           ("mappedBy", .str fieldB)])
  storeProcessedRelationship r1 schemaB fieldB
    (.obj [("type", .str "relation"), ("relation", .str "oneToOne"),
           ("target", .str ("api::" ++ schemaA ++ "." ++ schemaA)),
           ("inversedBy", .str fieldA)])

/-- addUnidirectionalOneToManyRelationship. -/
def addUnidirectionalOneToManyRelationship (relationships : RelationshipsMap)
    (fromSchema fieldName toSchema : String) : RelationshipsMap :=
  storeProcessedRelationship relationships fromSchema fieldName
    (.obj [("type", .str "relation"), ("relation", .str "oneToMany"),
           ("target", .str ("api::" ++ toSchema ++ "." ++ toSchema))])

/-- addUnidirectionalOneToOneRelationship. -/
def addUnidirectionalOneToOneRelationship (relationships : RelationshipsMap)
    (fromSchema fieldName toSchema : String) : RelationshipsMap :=
  storeProcessedRelationship relationships fromSchema fieldName
    (.obj [("type", .str "relation"), ("relation", .str "oneToOne"),
           ("target", .str ("api::" ++ toSchema ++ "." ++ toSchema))])

/-- processRelationship: classify one pair from the presence and array-ness
of its two edges. -/
def processRelationship (relationships : RelationshipsMap)
    (relationship : PairRelationship) : RelationshipsMap :=
  match relationship.aToB, relationship.bToA with
  | some aToB, some bToA =>
    if aToB.isArray && bToA.isArray then
      addManyToManyRelationship relationships
        relationship.schemaA aToB.fieldName relationship.schemaB bToA.fieldName
    else if aToB.isArray && !bToA.isArray then
      addOneToManyRelationship relationships
        relationship.schemaB bToA.fieldName relationship.schemaA aToB.fieldName
    else if !aToB.isArray && bToA.isArray then
      addOneToManyRelationship relationships
        relationship.schemaA aToB.fieldName relationship.schemaB bToA.fieldName
    else
      addBidirectionalOneToOneRelationship relationships
        relationship.schemaA aToB.fieldName relationship.schemaB bToA.fieldName
  | some aToB, none =>
    if aToB.isArray then
      addUnidirectionalOneToManyRelationship relationships
        relationship.schemaA aToB.fieldName relationship.schemaB
    else
      addUnidirectionalOneToOneRelationship relationships
        relationship.schemaA aToB.fieldName relationship.schemaB
  | none, some bToA =>
    if bToA.isArray then
      addUnidirectionalOneToManyRelationship relationships
        relationship.schemaB bToA.fieldName relationship.schemaA
    else
      addUnidirectionalOneToOneRelationship relationships
        relationship.schemaB bToA.fieldName relationship.schemaA
  | none, none => relationships

/-- analyzeBidirectionalRelationships: group all edges by pair key, then
classify each pair in map order. -/
def analyzeBidirectionalRelationships (relationships : RelationshipsMap)
    (allReferences : List (String × List SanityRef)) : RelationshipsMap :=
  (buildRelationshipMap allReferences).foldl
    (fun rels p => processRelationship rels p.2) relationships

/-- The relationship-inference part of generateStrapiSchemas: collect all
references, then analyze them, starting from the generator's initially empty
relationships map. -/
def generateRelationships (schemas : List (String × SchemaInfo)) : RelationshipsMap :=
  analyzeBidirectionalRelationships [] (collectAllReferences schemas)

/-- Lookup of a processed relationship config for (schemaName, fieldName). -/
def lookupRelationship (relationships : RelationshipsMap)
    (schemaName fieldName : String) : Option JsValue :=
  (lookupKV relationships schemaName).bind (fun inner => lookupKV inner fieldName)

end DynamicSchemaGenerator

namespace DynamicSchemaGenerator

/-! ### pluralize / singularize (utility methods of DynamicSchemaGenerator)

JS strings are modelled as character lists; word.endsWith(suf) is
List.isSuffixOf, word.slice(0, -n) is take (length - n). -/

/-- pluralize. -/
def pluralize (word : List Char) : List Char :=
  if ['y'].isSuffixOf word then word.dropLast ++ ['i', 'e', 's']
  else if ['s'].isSuffixOf word || ['s', 'h'].isSuffixOf word
      || ['c', 'h'].isSuffixOf word || ['x'].isSuffixOf word
      || ['z'].isSuffixOf word then word ++ ['e', 's']
  else word ++ ['s']

/-- singularize. -/
def singularize (word : List Char) : List Char :=
  if ['i', 'e', 's'].isSuffixOf word then word.take (word.length - 3) ++ ['y']
  else if ['e', 's'].isSuffixOf word then word.take (word.length - 2)
  else if ['s'].isSuffixOf word && !(['s', 's'].isSuffixOf word) then word.dropLast
  else word

/-- pluralize on String (wrapper used by the schema conversion code). -/
def pluralizeS (s : String) : String := String.mk (pluralize s.data)

/-- singularize on String (wrapper used by the schema conversion code). -/
def singularizeS (s : String) : String := String.mk (singularize s.data)

end DynamicSchemaGenerator

namespace DynamicSchemaGenerator

/-- The five-way ending check of pluralize's second branch (ends in s, sh,
ch, x or z). -/
def endsInEsTrigger (w : List Char) : Bool :=
  ['s'].isSuffixOf w || ['s', 'h'].isSuffixOf w || ['c', 'h'].isSuffixOf w
    || ['x'].isSuffixOf w || ['z'].isSuffixOf w

/-- The plural-shaped words on which pluralize after singularize is the
identity: ies-plurals, es-plurals whose stem ends in s/sh/ch/x/z, and plain
s-plurals (not ss/es) whose stem ends in none of y/s/sh/ch/x/z.  This is the
exact class forced by the rule tables of pluralize and singularize. -/
def pluralShaped (w : List Char) : Bool :=
  ['i', 'e', 's'].isSuffixOf w
  || (['e', 's'].isSuffixOf w && endsInEsTrigger (w.take (w.length - 2)))
  || (['s'].isSuffixOf w && !(['s', 's'].isSuffixOf w) && !(['e', 's'].isSuffixOf w)
      && !(['y'].isSuffixOf w.dropLast) && !(endsInEsTrigger w.dropLast))

end DynamicSchemaGenerator

namespace DynamicSchemaGenerator

/-- A value of the components map: either a parsed Sanity object schema or a
Strapi component object created during field conversion (the source stores
both in this.components). -/
inductive ComponentEntry where
  | parsed (si : SchemaInfo)
  | strapi (v : JsValue)

/-- Generator state touched by schema recovery, data analysis and schema
conversion. -/
structure GenState where
  schemas : List (String × SchemaInfo) := []
  components : List (String × ComponentEntry) := []
  singletonTypes : List String := []
  documentCounts : List (String × Nat) := []

/-- JS Set.add on the insertion-ordered list model of a Set. -/
def addToSet (s : List String) (x : String) : List String :=
  if s.contains x then s else s ++ [x]

/-- file.endsWith(".ts") || file.endsWith(".js"). -/
def isSchemaSourceFile (file : String) : Bool :=
  ['.', 't', 's'].isSuffixOf file.toList || ['.', 'j', 's'].isSuffixOf file.toList

/-- The singleton markers of parseOrganizedSchemas: folder named singletons
or singleton, or a filename containing ".singleton.". -/
def markerApplies (folder file : String) : Bool :=
  folder == "singletons" || folder == "singleton"
    || decide (List.IsInfix ".singleton.".toList file.toList)

/-- One directory entry handed to the parseOrganizedSchemas loop: the
containing folder name, the file name, and the result of parseSchemaFile
(none when the file yields no schema). -/
structure OrganizedItem where
  folder : String
  file : String
  parsed : Option SchemaInfo

/-- The loop body of parseOrganizedSchemas for one file. -/
def processOrganizedFile (st : GenState) (it : OrganizedItem) : GenState :=
  if isSchemaSourceFile it.file then
    match it.parsed with
    | some si =>
      let st1 := if markerApplies it.folder it.file then
          { st with singletonTypes := addToSet st.singletonTypes si.name }
        else st
      if si.type == "document" then
        { st1 with schemas := setKV st1.schemas si.name si }
      else if si.type == "object" then
        { st1 with components := setKV st1.components si.name (.parsed si) }
      else st1
    | none => st
  else st

/-- parseOrganizedSchemas over the flattened folder/file listing. -/
def parseOrganizedSchemas (st : GenState) (items : List OrganizedItem) :
    GenState :=
  items.foldl processOrganizedFile st

/-- One file of a flat schema directory with its parseSchemaFile result. -/
structure FlatItem where
  file : String
  parsed : Option SchemaInfo

/-- The loop body of parseFlatSchemas for one file. -/
def processFlatFile (st : GenState) (it : FlatItem) : GenState :=
  if isSchemaSourceFile it.file && it.file != "index.ts"
      && it.file != "index.js" then
    match it.parsed with
    | some si =>
      let st1 := if decide (List.IsInfix ".singleton.".toList it.file.toList) then
          { st with singletonTypes := addToSet st.singletonTypes si.name }
        else st
      if si.type == "document" then
        { st1 with schemas := setKV st1.schemas si.name si }
      else if si.type == "object" then
        { st1 with components := setKV st1.components si.name (.parsed si) }
      else st1
    | none => st
  else st

/-- parseFlatSchemas over the file listing. -/
def parseFlatSchemas (st : GenState) (items : List FlatItem) : GenState :=
  items.foldl processFlatFile st

/-- The typeCount accumulation of analyzeExportedData: skip types starting
with "sanity.", count the rest. -/
def analyzeTypeCounts (types : List String) : List (String × Nat) :=
  types.foldl
    (fun m t =>
      if ("sanity.".toList).isPrefixOf t.toList then m
      else setKV m t ((lookupKV m t).getD 0 + 1)) []

/-- analyzeExportedData: store document counts; singletons are only logged
for manual review, never added. -/
def analyzeExportedData (st : GenState) (types : List String) : GenState :=
  let typeCount := analyzeTypeCounts types
  { st with documentCounts :=
      typeCount.foldl (fun m p => setKV m p.1 p.2) st.documentCounts }

/-- this.typeMapping, minus the array entry, which holds a bound method and
is unreachable in convertField and convertNestedField (both handle arrays
before consulting the table). -/
def typeMapping (t : String) : Option String :=
  lookupKV
    [("string", "string"), ("text", "text"), ("number", "decimal"),
     ("boolean", "boolean"), ("datetime", "datetime"), ("date", "date"),
     ("email", "string"), ("url", "string"), ("slug", "uid"),
     ("image", "media"), ("file", "media"), ("reference", "relation"),
     ("object", "component"), ("block", "blocks")] t

/-- getComponentKey: singularized field name as category, pluralized as
component name. -/
def getComponentKey (fieldName : String) : String :=
  singularizeS fieldName ++ "." ++ pluralizeS fieldName

/-- convertNestedField: media for image/file, otherwise the primitive type
table with string fallback. -/
def convertNestedField (field : SanityNestedField) : JsValue :=
  if field.type == "image" || field.type == "file" then
    .obj [("type", .str "media"), ("multiple", .bool false),
          ("allowedTypes", .arr [.str "images", .str "files", .str "videos",
            .str "audios"])]
  else
    .obj [("type", .str ((typeMapping field.type).getD "string"))]

/-- createStringArrayComponent (the title argument is unused in the
source). -/
def createStringArrayComponent (componentName : String) (_title : String)
    (componentKey : String) (components : List (String × ComponentEntry)) :
    List (String × ComponentEntry) :=
  let parts := componentKey.splitOn "."
  let category := (parts.get? 0).getD ""
  let name := (parts.get? 1).getD ""
  let component : JsValue :=
    .obj [("collectionName",
            .str ("components_" ++ category ++ "_" ++ pluralizeS name)),
          ("info", .obj [("displayName", .str (singularizeS componentName))]),
          ("options", .obj []),
          ("attributes", .obj [("name", .obj [("type", .str "string")])]),
          ("config", .obj [])]
  setKV components componentKey (.strapi component)

/-- createObjectComponent: nested fields are converted with
convertNestedField (which never returns a falsy value); without parsed
nested fields the attributes fall back to a single json data field. -/
def createObjectComponent (componentName : String) (field : SanityField)
    (componentKey : String) (components : List (String × ComponentEntry)) :
    List (String × ComponentEntry) :=
  let parts := componentKey.splitOn "."
  let category := (parts.get? 0).getD ""
  let name := (parts.get? 1).getD ""
  let attrs : List (String × JsValue) :=
    match field.fields with
    | some nested =>
        nested.foldl (fun m nf => setKV m nf.name (convertNestedField nf)) []
    | none => [("data", .obj [("type", .str "json")])]
  let component : JsValue :=
    .obj [("collectionName",
            .str ("components_" ++ category ++ "_" ++ pluralizeS name)),
          ("info", .obj [("displayName", .str (singularizeS componentName))]),
          ("options", .obj []),
          ("attributes", .obj attrs),
          ("config", .obj [])]
  setKV components componentKey (.strapi component)

/-- handleArrayField (after the processed-relationship check, which
convertField performs before delegating and the source repeats). -/
def handleArrayFieldCore (components : List (String × ComponentEntry))
    (field : SanityField) : JsValue × List (String × ComponentEntry) :=
  match field.«of» with
  | none => (.obj [("type", .str "json")], components)
  | some [] => (.obj [("type", .str "json")], components)
  | some (firstItem :: restItems) =>
    let arrayItems := firstItem :: restItems
    if (arrayItems.filter (fun it => it.type == "reference")).length > 0 then
      (.obj [("type", .str "json")], components)
    else if (arrayItems.filter (fun it =>
        it.type == "image" || it.type == "file")).length > 0 then
      (.obj [("type", .str "media"), ("multiple", .bool true),
             ("allowedTypes", .arr [.str "images", .str "files",
               .str "videos", .str "audios"])], components)
    else if firstItem.type == "string" then
      let componentKey := getComponentKey field.name
      let t := (field.title).getD ""
      let components2 := createStringArrayComponent field.name
        (if t == "" then field.name else t) componentKey components
      (.obj [("type", .str "component"), ("repeatable", .bool true),
             ("component", .str componentKey)], components2)
    else if firstItem.type == "block" then
      (.obj [("type", .str "blocks")], components)
    else if firstItem.type == "object"
        || (lookupKV components firstItem.type).isSome then
      (.obj [("type", .str "component"), ("repeatable", .bool true),
             ("component", .str (getComponentKey field.name))], components)
    else (.obj [("type", .str "json")], components)

/-- handleArrayField including its own processed-relationship check. -/
def handleArrayField (relationships : RelationshipsMap)
    (components : List (String × ComponentEntry)) (field : SanityField)
    (parentSchemaName : String) : JsValue × List (String × ComponentEntry) :=
  match (lookupKV relationships parentSchemaName).bind
      (fun inner => lookupKV inner field.name) with
  | some cfg => (cfg, components)
  | none => handleArrayFieldCore components field

/-- handleObjectField: create the object component and reference it. -/
def handleObjectField (components : List (String × ComponentEntry))
    (field : SanityField) : JsValue × List (String × ComponentEntry) :=
  let componentKey := getComponentKey field.name
  let components2 := createObjectComponent field.name field componentKey
    components
  (.obj [("type", .str "component"), ("repeatable", .bool false),
         ("component", .str componentKey)], components2)

/-- The primitive-type tail of convertField: type table, validation rules
and enumeration options. -/
def convertPrimitiveField (field : SanityField) : JsValue :=
  let strapiType := (typeMapping field.type).getD "string"
  let props : List (String × JsValue) := [("type", .str strapiType)]
  let props := match field.validation.bind (fun v => v.required) with
    | some true => setKV props "required" (.bool true)
    | _ => props
  let props := match field.validation.bind (fun v => v.min) with
    | some m => setKV props "min" (.num (m : Int))
    | none => props
  let props := match field.validation.bind (fun v => v.max) with
    | some m => setKV props "max" (.num (m : Int))
    | none => props
  let props := match field.options.bind (fun o => o.list) with
    | some items =>
        setKV (setKV props "type" (.str "enumeration")) "enum"
          (.arr (items.map (fun it => JsValue.str it.value)))
    | none => props
  .obj props

/-- convertField: processed relationship, slug, array, object, media and
primitive branches.  Returns the Strapi field (never none: every branch of
the source returns an object) and the updated components map. -/
def convertField (relationships : RelationshipsMap)
    (components : List (String × ComponentEntry)) (field : SanityField)
    (parentSchemaName : String) : JsValue × List (String × ComponentEntry) :=
  match (lookupKV relationships parentSchemaName).bind
      (fun inner => lookupKV inner field.name) with
  | some cfg => (cfg, components)
  | none =>
    if field.type == "slug" then
      let src := (field.options.bind (fun o => o.source)).getD ""
      (.obj [("type", .str "uid"),
             ("targetField", .str (if src == "" then "title" else src)),
             ("required",
               .bool ((field.validation.bind (fun v => v.required)).getD
                 false))], components)
    else if field.type == "array" then
      handleArrayField relationships components field parentSchemaName
    else if field.type == "object" then
      handleObjectField components field
    else if field.type == "image" || field.type == "file" then
      (.obj [("type", .str "media"), ("multiple", .bool false),
             ("allowedTypes", .arr [.str "images", .str "files",
               .str "videos", .str "audios"])], components)
    else (convertPrimitiveField field, components)

/-- The attribute-building loop of convertToStrapiSchema. -/
def convertFieldsLoop (relationships : RelationshipsMap)
    (parentSchemaName : String) (fields : List SanityField)
    (acc : List (String × JsValue) × List (String × ComponentEntry)) :
    List (String × JsValue) × List (String × ComponentEntry) :=
  fields.foldl
    (fun acc field =>
      let r := convertField relationships acc.2 field parentSchemaName
      (setKV acc.1 field.name r.1, r.2)) acc

/-- convertToStrapiSchema: kind and collectionName from the singleton set,
info from the schema, attributes from convertField. -/
def convertToStrapiSchema (relationships : RelationshipsMap) (st : GenState)
    (sanitySchema : SchemaInfo) : JsValue × List (String × ComponentEntry) :=
  let isSingleton := st.singletonTypes.contains sanitySchema.name
  let documentCount := (lookupKV st.documentCounts sanitySchema.name).getD 0
  let attrs := convertFieldsLoop relationships sanitySchema.name
    sanitySchema.fields ([], st.components)
  (.obj [("kind",
           .str (if isSingleton then "singleType" else "collectionType")),
         ("collectionName",
           .str (if isSingleton then sanitySchema.name
             else pluralizeS sanitySchema.name)),
         ("info", .obj
           [("singularName", .str sanitySchema.name),
            ("pluralName", .str (pluralizeS sanitySchema.name)),
            ("displayName", .str (if sanitySchema.title == "" then
              sanitySchema.name else sanitySchema.title)),
            ("description", .str ("Migrated from Sanity ("
              ++ toString documentCount ++ " documents)"))]),
         ("options", .obj [("draftAndPublish", .bool true)]),
         ("pluginOptions", .obj []),
         ("attributes", .obj attrs.1)],
   attrs.2)

end DynamicSchemaGenerator

/-! ## lib/core/content-migrator.js — class UniversalContentMigrator -/

namespace UniversalContentMigrator

/-- Result of an asset upload (uploadToStrapi / uploadToCloudinary): an id, a
url and the provider tag. -/
structure AssetResult where
  id : JsValue
  url : JsValue
  provider : String

/-- First capture of the regex /images\x2f([^-]+)/ used by extractAssetKey:
scan for "images/", then take the maximal non-empty run of characters other
than a dash; on failure at one start position the scan advances by one. -/
def captureImagesKey : List Char → Option (List Char)
  | [] => none
  | c :: rest =>
    if ("images/".toList).isPrefixOf (c :: rest) then
      let tail := (c :: rest).drop 7
      let run := tail.takeWhile (fun ch => decide (ch ≠ '-'))
      if run.isEmpty then captureImagesKey rest else some run
    else captureImagesKey rest

/-- extractAssetKey: the regex capture, or the input itself when the regex
does not match. -/
def extractAssetKey (sanityAsset : String) : String :=
  match captureImagesKey sanityAsset.toList with
  | some run => String.mk run
  | none => sanityAsset

/-- The character class [a-f0-9]. -/
def isHexDigit (c : Char) : Bool :=
  ('a' ≤ c && c ≤ 'f') || ('0' ≤ c && c ≤ '9')

/-- First capture of the regex matching "image-", then one or more hex
digits [a-f0-9], then a dash — used by extractAssetIdFromImage on
asset._ref: scan for "image-", take the maximal run of hex digits, and
require a following dash (the character class excludes the dash, so greedy
matching needs no backtracking). -/
def captureImageRef : List Char → Option (List Char)
  | [] => none
  | c :: rest =>
    if ("image-".toList).isPrefixOf (c :: rest) then
      let tail := (c :: rest).drop 6
      let run := tail.takeWhile isHexDigit
      if !run.isEmpty && (tail.drop run.length).head? = some '-' then some run
      else captureImageRef rest
    else captureImageRef rest

/-- extractAssetIdFromImage: prefer a truthy _sanityAsset string, else match
asset._ref against the image-hash regex; everything else yields null.
Calling .match on a truthy non-string throws. -/
def extractAssetIdFromImage (imageObj : JsValue) : Except String (Option String) := do
  let sanityAsset ← getProp imageObj "_sanityAsset"
  if truthy sanityAsset then
    match sanityAsset with
    | .str s => pure (some (extractAssetKey s))
    | _ => .error "sanityAsset.match is not a function"
  else
    let asset ← getProp imageObj "asset"
    if truthy asset then
      let ref ← getProp asset "_ref"
      if truthy ref then
        match ref with
        | .str s =>
          match captureImageRef s.toList with
          | some run => pure (some (String.mk run))
          | none => pure none
        | _ => .error "ref.match is not a function"
      else pure none
    else pure none

/-- The single-media tail of transformMediaField: resolve the extracted
asset id through the migrated-assets map; unresolved ids yield null. -/
def transformSingleMedia (assets : List (String × AssetResult)) (v : JsValue) :
    Except String JsValue := do
  let assetId ← extractAssetIdFromImage v
  match assetId with
  | some key =>
    if key ≠ "" then
      match lookupKV assets key with
      | some migratedAsset => pure migratedAsset.id
      | none => pure .null
    else pure .null
  | none => pure .null

/-- The loop body of transformMediaField's multiple-media branch: a
resolvable item appends its migrated asset id, an unresolvable one is
dropped. -/
def transformMediaItemStep (assets : List (String × AssetResult))
    (acc : List JsValue) (item : JsValue) : Except String (List JsValue) := do
  let assetId ← extractAssetIdFromImage item
  match assetId with
  | some key =>
    if key ≠ "" then
      match lookupKV assets key with
      | some migratedAsset => pure (acc ++ [migratedAsset.id])
      | none => pure acc
    else pure acc
  | none => pure acc

/-- transformMediaField: an array value on a single-media field is replaced
by its first element (undefined when empty) and resolved as single media; an
array value on a multiple-media field maps each resolvable item to its
migrated asset id, silently dropping unresolved items. -/
def transformMediaField (assets : List (String × AssetResult))
    (strapiFieldConfig sanityValue : JsValue) : Except String JsValue := do
  let multiple ← getProp strapiFieldConfig "multiple"
  let isMultiple := jsStrictEq multiple (.bool true)
  match sanityValue with
  | .arr items =>
    if !isMultiple then
      transformSingleMedia assets (items.head?.getD .null)
    else do
      let results ← items.foldlM (transformMediaItemStep assets) ([] : List JsValue)
      pure (.arr results)
  | v => transformSingleMedia assets v

/-- One asset entry of the loaded assets.json (key is the _key derived by
loadSanityData; width and height are metadata.dimensions). -/
structure SanityAssetEntry where
  key : String
  sha1hash : String
  width : Nat
  height : Nat
  originalFilename : String

/-- migrateAsset.  The file system and the provider-specific upload
(uploadToStrapi or uploadToCloudinary, selected by config.assetProvider) are
environment parameters; path.join is string concatenation with a slash.  A
missing file yields null (no upload is attempted). -/
def migrateAsset (fileExists : String → Bool)
    (upload : String → SanityAssetEntry → Except String AssetResult)
    (asset : SanityAssetEntry) (imagesPath : String) :
    Except String (Option AssetResult) :=
  let filename := asset.sha1hash ++ "-" ++ toString asset.width ++ "x"
    ++ toString asset.height ++ ".png"
  let filePath := imagesPath ++ "/" ++ filename
  if fileExists filePath then (upload filePath asset).map some
  else .ok none

/-- The asset part of migrationState (assets map plus progress counters and
error log entries of kind "asset"). -/
structure AssetMigrationState where
  assets : List (String × AssetResult) := []
  total : Nat := 0
  completed : Nat := 0
  failed : Nat := 0
  errors : List (String × String) := []

/-- One iteration of the migrateAssets loop: a successful upload records the
mapping and counts completed; a null result (missing file) changes nothing;
a thrown error counts failed and is logged. -/
def migrateAssetsStep (fileExists : String → Bool)
    (upload : String → SanityAssetEntry → Except String AssetResult)
    (imagesPath : String) (st : AssetMigrationState) (asset : SanityAssetEntry) :
    AssetMigrationState :=
  match migrateAsset fileExists upload asset imagesPath with
  | .ok (some assetResult) =>
      { st with assets := setKV st.assets asset.key assetResult,
                completed := st.completed + 1 }
  | .ok none => st
  | .error e =>
      { st with failed := st.failed + 1,
                errors := st.errors ++ [(asset.key, e)] }

/-- migrateAssets (imagesPath is exportPath joined with "images"). -/
def migrateAssets (fileExists : String → Bool)
    (upload : String → SanityAssetEntry → Except String AssetResult)
    (imagesPath : String) (assets : List SanityAssetEntry)
    (st : AssetMigrationState) : AssetMigrationState :=
  assets.foldl (migrateAssetsStep fileExists upload imagesPath)
    { st with total := assets.length }

end UniversalContentMigrator

namespace UniversalContentMigrator

/-- JS Object.entries: own enumerable properties of an object (arrays
enumerate by stringified index); none for primitives and null. -/
def jsEntries : JsValue → Option (List (String × JsValue))
  | .obj props => some props
  | .arr items => some (items.enum.map (fun p => (toString p.1, p.2)))
  | _ => none

/-- Set a property on an object value (identity on non-objects). -/
def setObjProp (v : JsValue) (k : String) (x : JsValue) : JsValue :=
  match v with
  | .obj props => .obj (setKV props k x)
  | other => other

/-- transformComponentFieldValue: null passes through as null, listed
primitive kinds pass through, media resolves through the asset map, anything
else passes through. -/
def transformComponentFieldValue (assets : List (String × AssetResult))
    (sanityValue fieldConfig : JsValue) : Except String JsValue := do
  match sanityValue with
  | .null => pure .null
  | _ =>
    let ty ← getProp fieldConfig "type"
    if jsStrictEq ty (.str "string") || jsStrictEq ty (.str "text")
        || jsStrictEq ty (.str "boolean") || jsStrictEq ty (.str "integer")
        || jsStrictEq ty (.str "decimal") then pure sanityValue
    else if jsStrictEq ty (.str "media") then transformSingleMedia assets sanityValue
    else pure sanityValue

/-- transformComponentData: transform each non-system entry present in the
component schema's attributes, skipping fields whose transform throws; an
empty result becomes null. -/
def transformComponentData (assets : List (String × AssetResult))
    (sanityData componentSchema : JsValue) : Except String JsValue := do
  match jsEntries sanityData with
  | none => pure .null
  | some entries => do
    let transformed ← entries.foldlM
      (fun (acc : List (String × JsValue)) p => do
        if p.1.startsWith "_" then pure acc
        else do
          let attrs ← getProp componentSchema "attributes"
          let componentFieldConfig ← getProp attrs p.1
          if !truthy componentFieldConfig then pure acc
          else
            match transformComponentFieldValue assets p.2 componentFieldConfig with
            | .ok tv =>
              match tv with
              | .null => pure acc
              | t => pure (setKV acc p.1 t)
            | .error _ => pure acc)
      []
    if transformed.isEmpty then pure .null else pure (.obj transformed)

/-- transformComponentField (the logging-only fieldName, document and
contentType parameters are omitted): missing component schemas yield null; a
repeatable component maps items, dropping null-transformed items; a
non-array value on a repeatable component yields null. -/
def transformComponentField (assets : List (String × AssetResult))
    (componentMapping : List (String × JsValue))
    (sanityValue strapiFieldConfig : JsValue) : Except String JsValue := do
  let componentKeyV ← getProp strapiFieldConfig "component"
  let repeatable ← getProp strapiFieldConfig "repeatable"
  let isRepeatable := jsStrictEq repeatable (.bool true)
  let componentSchemaOpt := match componentKeyV with
    | .str componentKey => lookupKV componentMapping componentKey
    | _ => none
  match componentSchemaOpt with
  | none => pure .null
  | some componentSchema =>
    if isRepeatable then
      match sanityValue with
      | .arr items => do
        let results ← items.foldlM
          (fun (acc : List JsValue) item => do
            let transformedItem ← transformComponentData assets item componentSchema
            match transformedItem with
            | .null => pure acc
            | t => pure (acc ++ [t]))
          []
        pure (.arr results)
      | _ => pure .null
    else transformComponentData assets sanityValue componentSchema

/-- JS parseInt on a single character: a digit value, none for NaN. -/
def parseIntDigit (c : Char) : Option Nat :=
  if c.isDigit then some (c.toNat - 48) else none

/-- markDefs.find moving left to right matching def._key === mark; reading
_key of a null entry throws. -/
def findMarkDef : List JsValue → JsValue → Except String (Option JsValue)
  | [], _ => pure none
  | d :: rest, mark => do
    let k ← getProp d "_key"
    if jsStrictEq k mark then pure (some d) else findMarkDef rest mark

/-- The five decoration-mark flags set on a text node by
convertSpansToStrapiText. -/
def applyDecorationMark (textNode : JsValue) (mark : JsValue) : JsValue :=
  let n1 := if jsStrictEq mark (.str "strong") then setObjProp textNode "bold" (.bool true)
    else textNode
  let n2 := if jsStrictEq mark (.str "em") then setObjProp n1 "italic" (.bool true) else n1
  let n3 := if jsStrictEq mark (.str "underline") then setObjProp n2 "underline" (.bool true)
    else n2
  let n4 := if jsStrictEq mark (.str "strike-through")
    then setObjProp n3 "strikethrough" (.bool true) else n3
  if jsStrictEq mark (.str "code") then setObjProp n4 "code" (.bool true) else n4

/-- The for-loop over a span's marks: decoration flags accumulate on the
text node, and the first mark resolving to a link definition returns a link
node wrapping a single plain text child carrying the span's raw text,
discarding the accumulated node. -/
def convertSpanMarksLoop (markDefs : List JsValue) (spanText : JsValue) :
    List JsValue → JsValue → Except String JsValue
  | [], textNode => pure textNode
  | mark :: rest, textNode => do
    let node := applyDecorationMark textNode mark
    let markDef ← findMarkDef markDefs mark
    match markDef with
    | some d => do
      let ty ← getProp d "_type"
      if truthy d && jsStrictEq ty (.str "link") then do
        let href ← getProp d "href"
        pure (.obj [("type", .str "link"), ("url", href),
                    ("children", .arr [.obj [("type", .str "text"), ("text", spanText)]])])
      else convertSpanMarksLoop markDefs spanText rest node
    | none => convertSpanMarksLoop markDefs spanText rest node

/-- Per-span body of convertSpansToStrapiText: the base text node defaults a
falsy span.text to the empty string; the marks loop runs only for a
non-empty marks array. -/
def convertSpanToNode (markDefs : List JsValue) (span : JsValue) :
    Except String JsValue := do
  let spanText ← getProp span "text"
  let textNode := JsValue.obj [("type", .str "text"),
    ("text", if truthy spanText then spanText else .str "")]
  let marksV ← getProp span "marks"
  match marksV with
  | .arr marks =>
    if marks.length > 0 then convertSpanMarksLoop markDefs spanText marks textNode
    else pure textNode
  | _ => pure textNode

/-- convertSpansToStrapiText (markDefs defaults to the empty list when the
argument is undefined). -/
def convertSpansToStrapiText (spans markDefs : JsValue) : Except String JsValue := do
  match spans with
  | .arr items => do
    let mdList ← match markDefs with
      | .arr l => pure l
      | .null => pure ([] : List JsValue)
      | _ => Except.error "markDefs.find is not a function"
    let nodes ← items.mapM (convertSpanToNode mdList)
    pure (.arr nodes)
  | _ => pure (.arr [])

/-- convertSanityBlockToStrapiBlock: an "h" style of length two becomes a
heading at the parsed digit level (null for a NaN level), "blockquote" a
quote, anything else a paragraph; a truthy non-string style throws. -/
def convertSanityBlockToStrapiBlock (sanityBlock : JsValue) :
    Except String JsValue := do
  let style ← getProp sanityBlock "style"
  let children ← getProp sanityBlock "children"
  let markDefs ← getProp sanityBlock "markDefs"
  match style with
  | .str s =>
    if s.startsWith "h" && decide (s.length = 2) then do
      let level := match parseIntDigit ((s.toList.drop 1).headD ' ') with
        | some n => JsValue.num n
        | none => JsValue.null
      let ch ← convertSpansToStrapiText children markDefs
      pure (.obj [("type", .str "heading"), ("level", level), ("children", ch)])
    else if s = "blockquote" then do
      let ch ← convertSpansToStrapiText children markDefs
      pure (.obj [("type", .str "quote"), ("children", ch)])
    else do
      let ch ← convertSpansToStrapiText children markDefs
      pure (.obj [("type", .str "paragraph"), ("children", ch)])
  | v =>
    if truthy v then .error "style.startsWith is not a function"
    else do
      let ch ← convertSpansToStrapiText children markDefs
      pure (.obj [("type", .str "paragraph"), ("children", ch)])

/-- convertPortableTextToBlocks: non-arrays yield []; only items whose _type
is "block" convert, and each converted block is pushed. -/
def convertPortableTextToBlocks (portableText : JsValue) :
    Except String JsValue := do
  match portableText with
  | .arr blockList => do
    let blocks ← blockList.foldlM
      (fun (acc : List JsValue) block => do
        let ty ← getProp block "_type"
        if jsStrictEq ty (.str "block") then do
          let strapiBlock ← convertSanityBlockToStrapiBlock block
          if truthy strapiBlock then pure (acc ++ [strapiBlock]) else pure acc
        else pure acc)
      []
    pure (.arr blocks)
  | _ => pure (.arr [])

end UniversalContentMigrator

namespace UniversalContentMigrator

/-- One entry of migrationState.pendingRelationships. -/
structure PendingRelationship where
  sourceType : String
  sourceId : JsValue
  fieldName : String
  targetId : JsValue
  isArray : Bool
  relation : String

/-- The well-formedness test applied to each candidate reference value:
item._type === "reference" && item._ref (returning the truthy _ref).
Reading _type of null throws. -/
def referenceTarget (item : JsValue) : Except String (Option JsValue) := do
  let ty ← getProp item "_type"
  if jsStrictEq ty (.str "reference") then do
    let r ← getProp item "_ref"
    pure (if truthy r then some r else none)
  else pure none

/-- The array loop of storeRelationshipForProcessing.  Pushes performed
before a thrown TypeError persist (the migration state is mutated in
place), so the result is the final pending list together with the optional
error. -/
def storeRelLoop (sourceType : String) (sourceId : JsValue)
    (fieldName relation : String) :
    List JsValue → List PendingRelationship →
      List PendingRelationship × Option String
  | [], acc => (acc, none)
  | item :: rest, acc =>
    match referenceTarget item with
    | .error e => (acc, some e)
    | .ok (some r) =>
        storeRelLoop sourceType sourceId fieldName relation rest
          (acc ++ [⟨sourceType, sourceId, fieldName, r, true, relation⟩])
    | .ok none => storeRelLoop sourceType sourceId fieldName relation rest acc

/-- The non-array (else) branch of storeRelationshipForProcessing: a single
well-formed reference enqueues one entry with isArray = false. -/
def storeRelSingle (sourceType : String) (sourceId : JsValue)
    (fieldName relation : String) (v : JsValue)
    (pending : List PendingRelationship) :
    List PendingRelationship × Option String :=
  match referenceTarget v with
  | .error e => (pending, some e)
  | .ok (some r) =>
      (pending ++ [⟨sourceType, sourceId, fieldName, r, false, relation⟩], none)
  | .ok none => (pending, none)

/-- storeRelationshipForProcessing: a missing or non-string relation kind
throws when the source computes relation.includes (an unused local); an
array value enqueues one entry per well-formed reference item with
isArray = true; a single well-formed reference enqueues one entry with
isArray = false; everything else is skipped. -/
def storeRelationshipForProcessing (sourceType : String) (sourceId : JsValue)
    (fieldName : String) (sanityValue strapiFieldConfig : JsValue)
    (pending : List PendingRelationship) :
    List PendingRelationship × Option String :=
  match getProp strapiFieldConfig "relation" with
  | .error e => (pending, some e)
  | .ok relationV =>
    match relationV with
    | .str relation =>
      match sanityValue with
      | .arr items => storeRelLoop sourceType sourceId fieldName relation items pending
      | v => storeRelSingle sourceType sourceId fieldName relation v pending
    | _ => (pending, some "relation.includes is not a function")

/-- The uid branch of transformFieldWithSchema: a slug object yields its
current value. -/
def transformUidValue (sanityValue : JsValue) : Except String JsValue := do
  match sanityValue with
  | .obj _ | .arr _ =>
    let t ← getProp sanityValue "_type"
    if jsStrictEq t (.str "slug") then getProp sanityValue "current"
    else pure sanityValue
  | v => pure v

/-- The eleven pass-through primitive kinds of transformFieldWithSchema's
switch. -/
def isPassThroughType (ty : JsValue) : Bool :=
  jsStrictEq ty (.str "string") || jsStrictEq ty (.str "text")
  || jsStrictEq ty (.str "email") || jsStrictEq ty (.str "boolean")
  || jsStrictEq ty (.str "integer") || jsStrictEq ty (.str "biginteger")
  || jsStrictEq ty (.str "decimal") || jsStrictEq ty (.str "float")
  || jsStrictEq ty (.str "date") || jsStrictEq ty (.str "datetime")
  || jsStrictEq ty (.str "time")

/-- transformFieldWithSchema: dispatch on the Strapi field config's type
tag.  The relation branch returns null and appends to the pending
relationships; all other branches leave the pending list unchanged.  The
json and default branches pass the value through. -/
def transformFieldWithSchema (assets : List (String × AssetResult))
    (componentMapping : List (String × JsValue)) (contentType : String)
    (documentId : JsValue) (fieldName : String)
    (sanityValue strapiFieldConfig : JsValue)
    (pending : List PendingRelationship) :
    Except String JsValue × List PendingRelationship :=
  match sanityValue with
  | .null => (.ok .null, pending)
  | _ =>
    match getProp strapiFieldConfig "type" with
    | .error e => (.error e, pending)
    | .ok ty =>
      if isPassThroughType ty then (.ok sanityValue, pending)
      else if jsStrictEq ty (.str "uid") then (transformUidValue sanityValue, pending)
      else if jsStrictEq ty (.str "media") then
        (transformMediaField assets strapiFieldConfig sanityValue, pending)
      else if jsStrictEq ty (.str "blocks") then
        (convertPortableTextToBlocks sanityValue, pending)
      else if jsStrictEq ty (.str "component") then
        (transformComponentField assets componentMapping sanityValue strapiFieldConfig,
          pending)
      else if jsStrictEq ty (.str "relation") then
        match storeRelationshipForProcessing contentType documentId fieldName
            sanityValue strapiFieldConfig pending with
        | (pending2, some e) => (.error e, pending2)
        | (pending2, none) => (.ok .null, pending2)
      else (.ok sanityValue, pending)

/-- The Sanity system fields skipped by transformDocumentWithSchema. -/
def skipFields : List String :=
  ["_id", "_type", "_rev", "_createdAt", "_updatedAt", "_system"]

/-- The loop body of transformDocumentWithSchema for one document entry:
skip system fields, drop fields whose name is missing from (or falsy in)
the schema's attribute map, catch per-field transform errors (dropping the
field but keeping pending-state mutations), and omit null/undefined
results. -/
def transformDocumentFieldStep (assets : List (String × AssetResult))
    (componentMapping : List (String × JsValue)) (contentType : String)
    (documentId : JsValue) (strapiSchema : JsValue)
    (acc : List (String × JsValue) × List PendingRelationship)
    (p : String × JsValue) :
    Except String (List (String × JsValue) × List PendingRelationship) := do
  if p.1 ∈ skipFields then pure acc
  else do
    let attrs ← getProp strapiSchema "attributes"
    let strapiFieldConfig ← getProp attrs p.1
    if !truthy strapiFieldConfig then pure acc
    else
      match transformFieldWithSchema assets componentMapping contentType
          documentId p.1 p.2 strapiFieldConfig acc.2 with
      | (.error _, pending2) => pure (acc.1, pending2)
      | (.ok transformedValue, pending2) =>
        match transformedValue with
        | .null => pure (acc.1, pending2)
        | tv => pure (setKV acc.1 p.1 tv, pending2)

/-- transformDocumentWithSchema: run the per-field loop over the document's
entries, then stamp publishedAt from the document or from the current time
(the now parameter). -/
def transformDocumentWithSchema (assets : List (String × AssetResult))
    (componentMapping : List (String × JsValue)) (now : JsValue)
    (document : List (String × JsValue)) (strapiSchema : JsValue)
    (contentType : String) (pending : List PendingRelationship) :
    Except String (List (String × JsValue) × List PendingRelationship) := do
  let documentId := (lookupKV document "_id").getD .null
  let st ← document.foldlM
    (transformDocumentFieldStep assets componentMapping contentType documentId
      strapiSchema)
    (([], pending) : List (String × JsValue) × List PendingRelationship)
  let transformed := st.1
  let transformedPub := (lookupKV transformed "publishedAt").getD .null
  let documentPub := (lookupKV document "publishedAt").getD .null
  let finalTransformed :=
    if !truthy transformedPub && truthy documentPub then
      setKV transformed "publishedAt" documentPub
    else if !truthy transformedPub then setKV transformed "publishedAt" now
    else transformed
  pure (finalTransformed, st.2)

/-- The migrator's own pluralize copy (identical rule table to the
generator's). -/
def pluralize (word : List Char) : List Char :=
  if ['y'].isSuffixOf word then word.dropLast ++ ['i', 'e', 's']
  else if ['s'].isSuffixOf word || ['s', 'h'].isSuffixOf word
      || ['c', 'h'].isSuffixOf word || ['x'].isSuffixOf word
      || ['z'].isSuffixOf word then word ++ ['e', 's']
  else word ++ ['s']

/-- pluralize on String. -/
def pluralizeS (s : String) : String := String.mk (pluralize s.data)

/-- One entry of migrationState.entities: sanity id to created Strapi
entity (the originalData field is not consulted by the resolver and is
omitted). -/
structure EntityRecord where
  strapiId : JsValue
  documentId : JsValue
  contentType : String

/-- The append-if-absent merge of the array-relation branch of the
resolver's processRelationship. -/
def mergeRelationIds (ids : List JsValue) (targetDocumentId : JsValue) :
    List JsValue :=
  if jsIncludes ids targetDocumentId then ids else ids ++ [targetDocumentId]

/-- The resolver's processRelationship.  The Strapi store is modelled as a
map from endpoint to the entity representation last written (GET returns
it; PUT replaces it); a missing entity map entry or endpoint leaves the
store unchanged (the thrown 404 is caught by the caller's loop).  The body:
flatten a truthy attributes property into the top level, merge the relation
value into the named field (append-if-absent for arrays, overwrite
otherwise), strip the server-managed attributes, and write back. -/
def processRelationshipStep (entities : List (String × EntityRecord))
    (server : List (String × List (String × JsValue)))
    (relationship : PendingRelationship) :
    List (String × List (String × JsValue)) :=
  let sourceEntity := match relationship.sourceId with
    | .str s => lookupKV entities s
    | _ => none
  let targetEntity := match relationship.targetId with
    | .str s => lookupKV entities s
    | _ => none
  match sourceEntity, targetEntity with
  | some sourceEntity, some targetEntity =>
    let sourceDocumentId := jsOr sourceEntity.documentId sourceEntity.strapiId
    let targetDocumentId := jsOr targetEntity.documentId targetEntity.strapiId
    if !truthy sourceDocumentId || !truthy targetDocumentId then server
    else
      let endpoint := "/api/" ++ pluralizeS relationship.sourceType ++ "/"
        ++ jsToString sourceDocumentId
      match lookupKV server endpoint with
      | none => server
      | some currentData =>
        let updateData := currentData
        let updateData :=
          let av := (lookupKV updateData "attributes").getD .null
          if truthy av then
            let attrProps : List (String × JsValue) := match av with
              | .obj props => props
              | .arr items => items.enum.map (fun p => (toString p.1, p.2))
              | .str s => s.toList.enum.map
                  (fun p => (toString p.1, JsValue.str (String.mk [p.2])))
              | _ => []
            eraseKV
              (attrProps.foldl
                (fun (m : List (String × JsValue)) q => setKV m q.1 q.2) updateData)
              "attributes"
          else updateData
        let updateData :=
          if relationship.isArray then
            let cur := (lookupKV updateData relationship.fieldName).getD .null
            let ids := match cur with
              | .arr l => l
              | _ => []
            setKV updateData relationship.fieldName
              (.arr (mergeRelationIds ids targetDocumentId))
          else setKV updateData relationship.fieldName targetDocumentId
        let updateData := eraseKV (eraseKV (eraseKV (eraseKV (eraseKV updateData
          "id") "documentId") "createdAt") "updatedAt") "publishedAt"
        setKV server endpoint updateData
  | _, _ => server

/-- processPendingRelationships: resolve each pending relationship in
order; per-relationship failures are caught by the loop and leave the store
unchanged. -/
def processPendingRelationships (entities : List (String × EntityRecord))
    (server : List (String × List (String × JsValue)))
    (pendingRelationships : List PendingRelationship) :
    List (String × List (String × JsValue)) :=
  pendingRelationships.foldl (processRelationshipStep entities) server

end UniversalContentMigrator

namespace UniversalContentMigrator

/-- A mark resolves to a link definition: markDefs.find locates a truthy
def whose _type is "link". -/
def resolvesToLink (markDefs : List JsValue) (mark : JsValue) : Prop :=
  ∃ d, findMarkDef markDefs mark = .ok (some d) ∧ truthy d = true
    ∧ ∃ tv, getProp d "_type" = .ok tv ∧ jsStrictEq tv (.str "link") = true

/-- A field transformation that cannot contribute a payload entry: under
the given schema lookups it returns null or throws. -/
def fieldDoesNotSet (assets : List (String × AssetResult))
    (componentMapping : List (String × JsValue)) (contentType : String)
    (documentId : JsValue) (strapiSchema : JsValue) (f : String) (v : JsValue) :
    Prop :=
  ∀ attrs cfgv pending, getProp strapiSchema "attributes" = Except.ok attrs →
    getProp attrs f = Except.ok cfgv → truthy cfgv = true →
    (transformFieldWithSchema assets componentMapping contentType documentId f v
      cfgv pending).1 = .ok .null
    ∨ ∃ e, (transformFieldWithSchema assets componentMapping contentType documentId f v
      cfgv pending).1 = .error e

/-- A media value whose asset does not resolve: the id extraction succeeds
(no TypeError) but yields nothing, an empty key, or a key absent from the
migrated-assets map. -/
def assetUnresolved (assets : List (String × AssetResult)) (item : JsValue) : Prop :=
  ∃ r, extractAssetIdFromImage item = .ok r ∧
    (r = none ∨ ∃ k, r = some k ∧ (k = "" ∨ lookupKV assets k = none))

/-- The value a single-media field actually resolves (an array is replaced
by its first element, undefined when empty). -/
def singleMediaCandidate (v : JsValue) : JsValue :=
  match v with
  | .arr items => items.head?.getD .null
  | _ => v

/-- Specification-side characterization of one enqueued entry: the item is
kept exactly when it is a well-formed reference, together with the entry it
produces. -/
def wellFormedPending (sourceType : String) (sourceId : JsValue)
    (fieldName relation : String) (isArr : Bool) (item : JsValue) :
    Option PendingRelationship :=
  match referenceTarget item with
  | .ok (some r) => some ⟨sourceType, sourceId, fieldName, r, isArr, relation⟩
  | _ => none

/-- No value occurs twice (under strict equality) in a relation id array. -/
def arrBounded (l : List JsValue) : Prop :=
  ∀ t, l.countP (fun y => jsStrictEq y t) ≤ 1

/-- A server record suitable for the resolver: its attributes property is
absent or falsy (already flattened), and every array-valued field is free of
strict-equality duplicates. -/
def recordOk (props : List (String × JsValue)) : Prop :=
  truthy ((lookupKV props "attributes").getD .null) = false ∧
  ∀ p ∈ props, ∀ l, p.2 = JsValue.arr l → arrBounded l

/-- Every record in the Strapi store satisfies recordOk. -/
def serverOk (server : List (String × List (String × JsValue))) : Prop :=
  ∀ e ∈ server, recordOk e.2

end UniversalContentMigrator

/-! ## Lemmas -/

theorem lookupKV_setKV {α β : Type} [DecidableEq α] (l : List (α × β)) (k a : α) (v : β) :
    lookupKV (setKV l k v) a = if a = k then some v else lookupKV l a := by
  induction l with
  | nil => simp [setKV, lookupKV]
  | cons hd t ih =>
    obtain ⟨hk, hv⟩ := hd
    by_cases h1 : hk = k <;> by_cases h2 : a = hk <;>
      simp_all [setKV, lookupKV]

theorem lookupKV_mem {α β : Type} [DecidableEq α] {l : List (α × β)} {a : α} {b : β}
    (h : lookupKV l a = some b) : (a, b) ∈ l := by
  induction l with
  | nil => simp [lookupKV] at h
  | cons hd t ih =>
    obtain ⟨hk, hv⟩ := hd
    by_cases h1 : a = hk
    · subst h1
      simp [lookupKV] at h
      simp [h]
    · simp [lookupKV, h1] at h
      exact List.mem_cons_of_mem _ (ih h)

theorem mem_setKV {α β : Type} [DecidableEq α] {l : List (α × β)} {k : α} {v : β}
    {p : α × β} (h : p ∈ setKV l k v) : p = (k, v) ∨ p ∈ l := by
  induction l with
  | nil => simp [setKV] at h; simp [h]
  | cons hd t ih =>
    obtain ⟨hk, hv⟩ := hd
    by_cases h1 : hk = k
    · subst h1
      simp [setKV] at h
      rcases h with h | h
      · exact Or.inl h
      · exact Or.inr (List.mem_cons_of_mem _ h)
    · simp [setKV, h1] at h
      rcases h with h | h
      · exact Or.inr (by simp [h])
      · rcases ih h with h2 | h2
        · exact Or.inl h2
        · exact Or.inr (List.mem_cons_of_mem _ h2)

theorem mem_eraseKV {α β : Type} [DecidableEq α] {l : List (α × β)} {k : α}
    {p : α × β} (h : p ∈ eraseKV l k) : p ∈ l := by
  induction l with
  | nil => simp [eraseKV] at h
  | cons hd t ih =>
    obtain ⟨hk, hv⟩ := hd
    by_cases h1 : hk = k
    · simp [eraseKV, h1] at h
      exact List.mem_cons_of_mem _ h
    · simp [eraseKV, h1] at h
      rcases h with h | h
      · simp [h]
      · exact List.mem_cons_of_mem _ (ih h)

/-- Removing one key leaves lookups of other keys unchanged. -/
theorem lookupKV_eraseKV_ne {β : Type} (l : List (String × β)) (k a : String)
    (h : a ≠ k) : lookupKV (eraseKV l k) a = lookupKV l a := by
  induction l with
  | nil => rfl
  | cons hd t ih =>
    obtain ⟨hk, hv⟩ := hd
    by_cases h1 : hk = k
    · subst h1
      simp [eraseKV, lookupKV, h]
    · by_cases h2 : a = hk <;> simp [eraseKV, lookupKV, h1, h2, ih]

theorem jsStrictEq_symm (a b : JsValue) : jsStrictEq a b = jsStrictEq b a := by
  cases a <;> cases b <;> simp [jsStrictEq, BEq.comm]

theorem jsStrictEq_congr {t u : JsValue} (h : jsStrictEq t u = true) (x : JsValue) :
    jsStrictEq x t = jsStrictEq x u := by
  cases t <;> cases u <;> simp_all [jsStrictEq]

namespace DynamicSchemaGenerator

theorem jsSortLe_total (a b : List Char) (h : jsSortLe a b = false) :
    jsSortLe b a = true := by
  induction a generalizing b with
  | nil => simp [jsSortLe] at h
  | cons x xs ih =>
    cases b with
    | nil => simp [jsSortLe]
    | cons y ys =>
      by_cases hxy : x = y
      · subst hxy
        simp only [jsSortLe, if_pos rfl] at h ⊢
        exact ih ys h
      · simp only [jsSortLe, if_neg hxy, if_neg (Ne.symm hxy),
          decide_eq_false_iff_not, decide_eq_true_eq] at h ⊢
        rcases lt_trichotomy x y with h2 | h2 | h2
        · exact absurd h2 h
        · exact absurd h2 hxy
        · exact h2

theorem jsSortLe_antisymm (a b : List Char) (h1 : jsSortLe a b = true)
    (h2 : jsSortLe b a = true) : a = b := by
  induction a generalizing b with
  | nil =>
    cases b with
    | nil => rfl
    | cons y ys => simp [jsSortLe] at h2
  | cons x xs ih =>
    cases b with
    | nil => simp [jsSortLe] at h1
    | cons y ys =>
      by_cases hxy : x = y
      · subst hxy
        simp only [jsSortLe, if_pos rfl] at h1 h2
        rw [ih ys h1 h2]
      · simp only [jsSortLe, if_neg hxy, if_neg (Ne.symm hxy),
          decide_eq_true_eq] at h1 h2
        exact absurd (lt_trans h1 h2) (lt_irrefl x)

theorem getRelationshipKey_comm (a b : String) :
    getRelationshipKey a b = getRelationshipKey b a := by
  unfold getRelationshipKey
  by_cases h1 : jsSortLe a.data b.data = true <;>
    by_cases h2 : jsSortLe b.data a.data = true
  · have hd : a.data = b.data := jsSortLe_antisymm _ _ h1 h2
    have hab : a = b := by
      cases a; cases b; exact congrArg String.mk hd
    simp [hab]
  · show (if jsSortLe a.data b.data = true then _ else _) = _
    simp [h1, h2]
  · show (if jsSortLe a.data b.data = true then _ else _) = _
    simp [h1, h2]
  · have := jsSortLe_total a.data b.data (by simpa using h1)
    exact absurd this (by simpa using h2)

end DynamicSchemaGenerator

/-! ## Helper lemmas about reference extraction -/

namespace DynamicSchemaGenerator

/-- A schema whose single field is an array-of-reference field targeting Y
contributes exactly one array reference edge. -/
theorem fieldRefs_single_array (Y fX : String) (hY : Y ≠ "")
    (fieldX : SanityField)
    (hX1 : fieldX.type = "array") (hX2 : fieldX.name = fX)
    (itemX : SanityArrayItem) (restX : List SanityToRef)
    (hX3 : fieldX.«of» = some [itemX]) (hX4 : itemX.type = "reference")
    (hX5 : itemX.«to» = some (⟨Y⟩ :: restX)) :
    fieldRefs [fieldX] = [⟨fX, Y, true⟩] := by
  unfold fieldRefs
  simp only [List.foldl_cons, List.foldl_nil]
  unfold extractReferencesFromField
  rw [hX1]
  simp [hX2, hX3, hX4, hX5, firstToType, hY]

/-- A schema whose single field is a single reference field targeting Y
contributes exactly one non-array reference edge. -/
theorem fieldRefs_single_ref (Y fX : String) (hY : Y ≠ "")
    (fieldX : SanityField)
    (hX1 : fieldX.type = "reference") (hX2 : fieldX.name = fX)
    (restX : List SanityToRef)
    (hX5 : fieldX.«to» = some (⟨Y⟩ :: restX)) :
    fieldRefs [fieldX] = [⟨fX, Y, false⟩] := by
  unfold fieldRefs
  simp only [List.foldl_cons, List.foldl_nil]
  unfold extractReferencesFromField
  rw [hX1]
  simp [hX2, hX5, firstToType, hY]

/-- Grouping two mutual reference edges between distinct X and Y yields a
single pair entry keyed by the shared pair key, with X (seen first) as
schemaA. -/
theorem buildRelationshipMap_pair (X Y fX fY : String) (hXY : X ≠ Y)
    (aArr bArr : Bool) :
    buildRelationshipMap [(X, [⟨fX, Y, aArr⟩]), (Y, [⟨fY, X, bArr⟩])]
      = [(getRelationshipKey X Y, ⟨X, Y, some ⟨fX, Y, aArr⟩, some ⟨fY, X, bArr⟩⟩)] := by
  unfold buildRelationshipMap
  simp only [List.foldl_cons, List.foldl_nil]
  unfold addReferenceToMap
  simp [lookupKV, setKV, getRelationshipKey_comm Y X, Ne.symm hXY]

/-- C1: if X declares an array-of-reference field (named fX) targeting Y and
Y declares an array-of-reference field (named fY) targeting X, relationship
inference produces manyToMany configs on both sides, cross-linked: X's field
carries mappedBy = fY and Y's field carries inversedBy = fX.  Moreover
(second conjunct) the classification depends only on the two edges' isArray
flags: any pair entry whose two edges are both arrays is classified
manyToMany with the same cross-link, whatever the surrounding state — the
classification is never downgraded by any other signal. -/
theorem c1_mutual_array_refs_yield_manyToMany
    (X Y fX fY : String) (hXY : X ≠ Y) (hX : X ≠ "") (hY : Y ≠ "")
    (fieldX fieldY : SanityField)
    (hX1 : fieldX.type = "array") (hX2 : fieldX.name = fX)
    (itemX : SanityArrayItem) (restX : List SanityToRef)
    (hX3 : fieldX.«of» = some [itemX]) (hX4 : itemX.type = "reference")
    (hX5 : itemX.«to» = some (⟨Y⟩ :: restX))
    (hY1 : fieldY.type = "array") (hY2 : fieldY.name = fY)
    (itemY : SanityArrayItem) (restY : List SanityToRef)
    (hY3 : fieldY.«of» = some [itemY]) (hY4 : itemY.type = "reference")
    (hY5 : itemY.«to» = some (⟨X⟩ :: restY))
    (sX sY : SchemaInfo) (hsX : sX.fields = [fieldX]) (hsY : sY.fields = [fieldY]) :
    (lookupRelationship (generateRelationships [(X, sX), (Y, sY)]) X fX
      = some (.obj [("type", .str "relation"), ("relation", .str "manyToMany"),
                    ("target", .str ("api::" ++ Y ++ "." ++ Y)), ("mappedBy", .str fY)])
    ∧ lookupRelationship (generateRelationships [(X, sX), (Y, sY)]) Y fY
      = some (.obj [("type", .str "relation"), ("relation", .str "manyToMany"),
                    ("target", .str ("api::" ++ X ++ "." ++ X)), ("inversedBy", .str fX)]))
    ∧ (∀ (rels : RelationshipsMap) (rel : PairRelationship) (a b : SanityRef),
        rel.aToB = some a → rel.bToA = some b →
        a.isArray = true → b.isArray = true → rel.schemaA ≠ rel.schemaB →
        lookupRelationship (processRelationship rels rel) rel.schemaA a.fieldName
          = some (.obj [("type", .str "relation"), ("relation", .str "manyToMany"),
                        ("target", .str ("api::" ++ rel.schemaB ++ "." ++ rel.schemaB)),
                        ("mappedBy", .str b.fieldName)])
        ∧ lookupRelationship (processRelationship rels rel) rel.schemaB b.fieldName
          = some (.obj [("type", .str "relation"), ("relation", .str "manyToMany"),
                        ("target", .str ("api::" ++ rel.schemaA ++ "." ++ rel.schemaA)),
                        ("inversedBy", .str a.fieldName)])) := by
  constructor
  · have hrX : fieldRefs sX.fields = [⟨fX, Y, true⟩] := by
      rw [hsX]
      exact fieldRefs_single_array Y fX hY fieldX hX1 hX2 itemX restX hX3 hX4 hX5
    have hrY : fieldRefs sY.fields = [⟨fY, X, true⟩] := by
      rw [hsY]
      exact fieldRefs_single_array X fY hX fieldY hY1 hY2 itemY restY hY3 hY4 hY5
    have hcoll : collectAllReferences [(X, sX), (Y, sY)]
        = [(X, [⟨fX, Y, true⟩]), (Y, [⟨fY, X, true⟩])] := by
      unfold collectAllReferences
      simp only [List.foldl_cons, List.foldl_nil, hrX, hrY]
      simp [setKV, hXY, Ne.symm hXY]
    unfold generateRelationships analyzeBidirectionalRelationships
    rw [hcoll, buildRelationshipMap_pair X Y fX fY hXY true true]
    simp only [List.foldl_cons, List.foldl_nil]
    unfold processRelationship
    simp only
    unfold addManyToManyRelationship storeProcessedRelationship lookupRelationship
    simp [lookupKV, setKV, hXY, Ne.symm hXY]
  · intro rels rel a b hA hB ha hb hAB
    unfold processRelationship
    rw [hA, hB]
    simp only [ha, hb, Bool.and_self, if_true]
    unfold addManyToManyRelationship storeProcessedRelationship lookupRelationship
    simp [lookupKV_setKV, hAB, Ne.symm hAB]

/-- Witness for C1 at a concrete author/post pair with mutual array
references. -/
theorem c1_mutual_array_refs_yield_manyToMany_witness :
    lookupRelationship
      (generateRelationships
        [("author", { name := "author", type := "document", title := "Author",
                      fields := [{ name := "posts", type := "array",
                                   «of» := some [{ type := "reference",
                                                   «to» := some [⟨"post"⟩] }] }] }),
         ("post", { name := "post", type := "document", title := "Post",
                    fields := [{ name := "authors", type := "array",
                                 «of» := some [{ type := "reference",
                                                 «to» := some [⟨"author"⟩] }] }] })])
      "author" "posts"
      = some (.obj [("type", .str "relation"), ("relation", .str "manyToMany"),
                    ("target", .str "api::post.post"), ("mappedBy", .str "authors")]) := by
  have h := (c1_mutual_array_refs_yield_manyToMany "author" "post" "posts" "authors"
    (by decide) (by decide) (by decide)
    { name := "posts", type := "array",
      «of» := some [{ type := "reference", «to» := some [⟨"post"⟩] }] }
    { name := "authors", type := "array",
      «of» := some [{ type := "reference", «to» := some [⟨"author"⟩] }] }
    rfl rfl { type := "reference", «to» := some [⟨"post"⟩] } [] rfl rfl rfl
    rfl rfl { type := "reference", «to» := some [⟨"author"⟩] } [] rfl rfl rfl
    { name := "author", type := "document", title := "Author",
      fields := [{ name := "posts", type := "array",
                   «of» := some [{ type := "reference", «to» := some [⟨"post"⟩] }] }] }
    { name := "post", type := "document", title := "Post",
      fields := [{ name := "authors", type := "array",
                   «of» := some [{ type := "reference", «to» := some [⟨"author"⟩] }] }] }
    rfl rfl).1.1
  simpa using h

/-- C2: if X declares a single (non-array) reference field fX targeting Y and
Y declares an array-of-reference field fY targeting X, inference classifies
the pair as one-to-many with X the "one" side: X's field gets a oneToMany
config mapped by Y's field name, and Y's (many-side) field gets a manyToOne
config carrying X's field name as inversedBy. -/
theorem c2_single_vs_array_refs_yield_oneToMany
    (X Y fX fY : String) (hXY : X ≠ Y) (hX : X ≠ "") (hY : Y ≠ "")
    (fieldX fieldY : SanityField)
    (hX1 : fieldX.type = "reference") (hX2 : fieldX.name = fX)
    (restX : List SanityToRef) (hX5 : fieldX.«to» = some (⟨Y⟩ :: restX))
    (hY1 : fieldY.type = "array") (hY2 : fieldY.name = fY)
    (itemY : SanityArrayItem) (restY : List SanityToRef)
    (hY3 : fieldY.«of» = some [itemY]) (hY4 : itemY.type = "reference")
    (hY5 : itemY.«to» = some (⟨X⟩ :: restY))
    (sX sY : SchemaInfo) (hsX : sX.fields = [fieldX]) (hsY : sY.fields = [fieldY]) :
    lookupRelationship (generateRelationships [(X, sX), (Y, sY)]) X fX
      = some (.obj [("type", .str "relation"), ("relation", .str "oneToMany"),
                    ("target", .str ("api::" ++ Y ++ "." ++ Y)), ("mappedBy", .str fY)])
    ∧ lookupRelationship (generateRelationships [(X, sX), (Y, sY)]) Y fY
      = some (.obj [("type", .str "relation"), ("relation", .str "manyToOne"),
                    ("target", .str ("api::" ++ X ++ "." ++ X)), ("inversedBy", .str fX)]) := by
  have hrX : fieldRefs sX.fields = [⟨fX, Y, false⟩] := by
    rw [hsX]
    exact fieldRefs_single_ref Y fX hY fieldX hX1 hX2 restX hX5
  have hrY : fieldRefs sY.fields = [⟨fY, X, true⟩] := by
    rw [hsY]
    exact fieldRefs_single_array X fY hX fieldY hY1 hY2 itemY restY hY3 hY4 hY5
  have hcoll : collectAllReferences [(X, sX), (Y, sY)]
      = [(X, [⟨fX, Y, false⟩]), (Y, [⟨fY, X, true⟩])] := by
    unfold collectAllReferences
    simp only [List.foldl_cons, List.foldl_nil, hrX, hrY]
    simp [setKV, hXY, Ne.symm hXY]
  unfold generateRelationships analyzeBidirectionalRelationships
  rw [hcoll, buildRelationshipMap_pair X Y fX fY hXY false true]
  simp only [List.foldl_cons, List.foldl_nil]
  unfold processRelationship
  simp only
  unfold addOneToManyRelationship storeProcessedRelationship lookupRelationship
  simp [lookupKV, setKV, hXY, Ne.symm hXY]

/-- Witness for C2 at a concrete category/product pair: category.product is a
single reference, product.categories an array reference. -/
theorem c2_single_vs_array_refs_yield_oneToMany_witness :
    lookupRelationship
      (generateRelationships
        [("category", { name := "category", type := "document", title := "Category",
                        fields := [{ name := "product", type := "reference",
                                     «to» := some [⟨"product"⟩] }] }),
         ("product", { name := "product", type := "document", title := "Product",
                       fields := [{ name := "categories", type := "array",
                                    «of» := some [{ type := "reference",
                                                    «to» := some [⟨"category"⟩] }] }] })])
      "category" "product"
      = some (.obj [("type", .str "relation"), ("relation", .str "oneToMany"),
                    ("target", .str "api::product.product"),
                    ("mappedBy", .str "categories")]) := by
  have h := (c2_single_vs_array_refs_yield_oneToMany "category" "product"
    "product" "categories" (by decide) (by decide) (by decide)
    { name := "product", type := "reference", «to» := some [⟨"product"⟩] }
    { name := "categories", type := "array",
      «of» := some [{ type := "reference", «to» := some [⟨"category"⟩] }] }
    rfl rfl [] rfl
    rfl rfl { type := "reference", «to» := some [⟨"category"⟩] } [] rfl rfl rfl
    { name := "category", type := "document", title := "Category",
      fields := [{ name := "product", type := "reference",
                   «to» := some [⟨"product"⟩] }] }
    { name := "product", type := "document", title := "Product",
      fields := [{ name := "categories", type := "array",
                   «of» := some [{ type := "reference", «to» := some [⟨"category"⟩] }] }] }
    rfl rfl).1
  simpa using h

end DynamicSchemaGenerator

/-! ## Suffix toolkit for the pluralization analysis -/

theorem isSuffixOf_iff {l w : List Char} : l.isSuffixOf w = true ↔ l <:+ w := by
  rw [List.isSuffixOf, List.isPrefixOf_iff_prefix, List.reverse_prefix]

theorem isSuffixOf_append_self (l w : List Char) : l.isSuffixOf (w ++ l) = true :=
  isSuffixOf_iff.mpr (List.suffix_append w l)

theorem isSuffixOf_append_cancel (l₁ l₂ w : List Char) :
    (l₁ ++ l₂).isSuffixOf (w ++ l₂) = l₁.isSuffixOf w := by
  have h : (l₁ ++ l₂).isSuffixOf (w ++ l₂) = true ↔ l₁.isSuffixOf w = true := by
    rw [isSuffixOf_iff, isSuffixOf_iff]
    constructor
    · rintro ⟨t, ht⟩
      exact ⟨t, List.append_cancel_right (by rw [List.append_assoc, ht])⟩
    · rintro ⟨t, ht⟩
      exact ⟨t, by rw [← List.append_assoc, ht]⟩
  cases hb : l₁.isSuffixOf w with
  | true => exact h.mpr hb
  | false => exact Bool.eq_false_iff.mpr (fun hc => by simp [h.mp hc] at hb)

theorem singleton_isSuffixOf_append (c d : Char) (w : List Char) :
    [c].isSuffixOf (w ++ [d]) = decide (c = d) := by
  by_cases hcd : c = d
  · subst hcd
    simp [isSuffixOf_append_self]
  · simp only [decide_eq_false hcd]
    refine Bool.eq_false_iff.mpr (fun hc => hcd ?_)
    rcases isSuffixOf_iff.mp hc with ⟨t, ht⟩
    have := congrArg (fun l => l.getLast?) ht
    simpa [List.getLast?_append] using this

theorem exists_of_singleton_isSuffixOf {c : Char} {w : List Char}
    (h : [c].isSuffixOf w = true) : ∃ v, w = v ++ [c] := by
  rcases isSuffixOf_iff.mp h with ⟨t, ht⟩
  exact ⟨t, ht.symm⟩

theorem isSuffixOf_right_of_append {l₁ l₂ w : List Char}
    (h : (l₁ ++ l₂).isSuffixOf w = true) : l₂.isSuffixOf w = true :=
  isSuffixOf_iff.mpr (List.IsSuffix.trans (List.suffix_append l₁ l₂) (isSuffixOf_iff.mp h))

theorem take_sub_append (u l : List Char) (n : Nat) (hn : l.length = n) :
    (u ++ l).take ((u ++ l).length - n) = u := by
  subst hn
  simp [List.length_append]

namespace DynamicSchemaGenerator

/-- A word passing endsInEsTrigger ends in s, h, x or z — in particular not
in i and not in y. -/
theorem endsInEsTrigger_last {t : List Char} (h : endsInEsTrigger t = true) :
    ∃ v c, t = v ++ [c] ∧ c ≠ 'i' ∧ c ≠ 'y' := by
  simp only [endsInEsTrigger, Bool.or_eq_true] at h
  rcases h with ((((h | h) | h) | h) | h)
  · obtain ⟨v, hv⟩ := exists_of_singleton_isSuffixOf h
    exact ⟨v, 's', hv, by decide, by decide⟩
  · obtain ⟨v, hv⟩ := exists_of_singleton_isSuffixOf
      (@isSuffixOf_right_of_append ['s'] ['h'] _ h)
    exact ⟨v, 'h', hv, by decide, by decide⟩
  · obtain ⟨v, hv⟩ := exists_of_singleton_isSuffixOf
      (@isSuffixOf_right_of_append ['c'] ['h'] _ h)
    exact ⟨v, 'h', hv, by decide, by decide⟩
  · obtain ⟨v, hv⟩ := exists_of_singleton_isSuffixOf h
    exact ⟨v, 'x', hv, by decide, by decide⟩
  · obtain ⟨v, hv⟩ := exists_of_singleton_isSuffixOf h
    exact ⟨v, 'z', hv, by decide, by decide⟩

/-- singularize after pluralize is the identity exactly when the word does
not end in 'e'. -/
theorem singularize_pluralize_of_not_e (w : List Char)
    (he : ['e'].isSuffixOf w = false) : singularize (pluralize w) = w := by
  unfold pluralize
  by_cases hy : ['y'].isSuffixOf w = true
  · rw [if_pos hy]
    obtain ⟨v, rfl⟩ := exists_of_singleton_isSuffixOf hy
    rw [List.dropLast_concat]
    unfold singularize
    rw [if_pos (isSuffixOf_append_self ['i', 'e', 's'] v)]
    rw [take_sub_append v ['i', 'e', 's'] 3 rfl]
  · rw [if_neg hy]
    by_cases h5 : (['s'].isSuffixOf w || ['s', 'h'].isSuffixOf w
        || ['c', 'h'].isSuffixOf w || ['x'].isSuffixOf w
        || ['z'].isSuffixOf w) = true
    · rw [if_pos h5]
      obtain ⟨v, c, rfl, hci, _⟩ := endsInEsTrigger_last h5
      unfold singularize
      have hies : (['i', 'e', 's'] : List Char).isSuffixOf ((v ++ [c]) ++ ['e', 's'])
          = false := by
        have heq : (['i'] ++ ['e', 's'] : List Char) = ['i', 'e', 's'] := rfl
        rw [← heq, isSuffixOf_append_cancel, singleton_isSuffixOf_append]
        simp [Ne.symm hci]
      rw [if_neg (by simp only [hies]; exact Bool.false_ne_true)]
      rw [if_pos (isSuffixOf_append_self ['e', 's'] (v ++ [c]))]
      rw [take_sub_append (v ++ [c]) ['e', 's'] 2 rfl]
    · rw [if_neg h5]
      simp only [Bool.or_eq_true, not_or] at h5
      obtain ⟨⟨⟨⟨hs, _⟩, _⟩, _⟩, _⟩ := h5
      unfold singularize
      have hies : (['i', 'e', 's'] : List Char).isSuffixOf (w ++ ['s']) = false := by
        have heq : (['i', 'e'] ++ ['s'] : List Char) = ['i', 'e', 's'] := rfl
        rw [← heq, isSuffixOf_append_cancel]
        refine Bool.eq_false_iff.mpr (fun hc => ?_)
        have := @isSuffixOf_right_of_append ['i'] ['e'] _ hc
        simp [this] at he
      have hes : (['e', 's'] : List Char).isSuffixOf (w ++ ['s']) = false := by
        have heq : (['e'] ++ ['s'] : List Char) = ['e', 's'] := rfl
        rw [← heq, isSuffixOf_append_cancel]
        exact he
      have hss : (['s', 's'] : List Char).isSuffixOf (w ++ ['s']) = false := by
        have heq : (['s'] ++ ['s'] : List Char) = ['s', 's'] := rfl
        rw [← heq, isSuffixOf_append_cancel]
        exact Bool.eq_false_iff.mpr hs
      rw [if_neg (by simp only [hies]; exact Bool.false_ne_true)]
      rw [if_neg (by simp only [hes]; exact Bool.false_ne_true)]
      rw [if_pos (by simp only [isSuffixOf_append_self, hss]; rfl)]
      exact List.dropLast_concat

/-- pluralize after singularize is the identity on plural-shaped words. -/
theorem pluralize_singularize_of_pluralShaped (w : List Char)
    (hc : pluralShaped w = true) : pluralize (singularize w) = w := by
  simp only [pluralShaped, Bool.or_eq_true, Bool.and_eq_true, Bool.not_eq_true'] at hc
  rcases hc with (hies | ⟨hes, htrig⟩) | ⟨⟨⟨⟨hsuf, hssnot⟩, hesnot⟩, hynot⟩, htrignot⟩
  · rcases isSuffixOf_iff.mp hies with ⟨t, rfl⟩
    unfold singularize
    rw [if_pos (isSuffixOf_append_self ['i', 'e', 's'] t)]
    rw [take_sub_append t ['i', 'e', 's'] 3 rfl]
    unfold pluralize
    rw [if_pos (isSuffixOf_append_self ['y'] t)]
    rw [List.dropLast_concat]
  · rcases isSuffixOf_iff.mp hes with ⟨t, rfl⟩
    rw [take_sub_append t ['e', 's'] 2 rfl] at htrig
    obtain ⟨v, c, rfl, hci, hcy⟩ := endsInEsTrigger_last htrig
    unfold singularize
    have hies2 : (['i', 'e', 's'] : List Char).isSuffixOf ((v ++ [c]) ++ ['e', 's'])
        = false := by
      have heq : (['i'] ++ ['e', 's'] : List Char) = ['i', 'e', 's'] := rfl
      rw [← heq, isSuffixOf_append_cancel, singleton_isSuffixOf_append]
      simp [Ne.symm hci]
    rw [if_neg (by simp only [hies2]; exact Bool.false_ne_true)]
    rw [if_pos (isSuffixOf_append_self ['e', 's'] (v ++ [c]))]
    rw [take_sub_append (v ++ [c]) ['e', 's'] 2 rfl]
    unfold pluralize
    have hy2 : (['y'] : List Char).isSuffixOf (v ++ [c]) = false := by
      rw [singleton_isSuffixOf_append]
      simp [Ne.symm hcy]
    rw [if_neg (by simp only [hy2]; exact Bool.false_ne_true)]
    rw [if_pos (by simpa [endsInEsTrigger, Bool.or_eq_true] using htrig)]
  · rcases exists_of_singleton_isSuffixOf hsuf with ⟨t, rfl⟩
    unfold singularize
    have hies3 : (['i', 'e', 's'] : List Char).isSuffixOf (t ++ ['s']) = false := by
      refine Bool.eq_false_iff.mpr (fun hc2 => ?_)
      have := @isSuffixOf_right_of_append ['i'] ['e', 's'] _ hc2
      simp [this] at hesnot
    rw [if_neg (by simp only [hies3]; exact Bool.false_ne_true)]
    rw [if_neg (by simp only [hesnot]; exact Bool.false_ne_true)]
    rw [if_pos (by
      simp only [isSuffixOf_append_self, hssnot]
      rfl)]
    rw [List.dropLast_concat] at hynot htrignot ⊢
    unfold pluralize
    rw [if_neg (by simp only [hynot]; exact Bool.false_ne_true)]
    rw [if_neg (by
      simp only [endsInEsTrigger] at htrignot
      simp only [htrignot]
      exact Bool.false_ne_true)]

/-- C4 (amended): the two round-trip compositions of the generator's
pluralize and singularize are the identity on the following exact classes:
singularize (pluralize w) = w for every word w not ending in 'e', and
pluralize (singularize w) = w for every plural-shaped word (ends in "ies";
or ends in "es" with a stem ending in s/sh/ch/x/z; or ends in "s" — not
"ss" or "es" — with a stem ending in none of y/s/sh/ch/x/z).  The original
claim's identity on all regular singular nouns fails (see the
counterexample). -/
theorem c4_round_trip_classes (w : List Char) :
    (['e'].isSuffixOf w = false → singularize (pluralize w) = w)
    ∧ (pluralShaped w = true → pluralize (singularize w) = w) :=
  ⟨singularize_pluralize_of_not_e w, pluralize_singularize_of_pluralShaped w⟩

/-- Witness for C4 at "cat" (not ending in 'e') and "boxes"
(plural-shaped). -/
theorem c4_round_trip_classes_witness :
    singularize (pluralize ['c', 'a', 't']) = ['c', 'a', 't']
    ∧ pluralize (singularize ['b', 'o', 'x', 'e', 's']) = ['b', 'o', 'x', 'e', 's'] :=
  ⟨(c4_round_trip_classes ['c', 'a', 't']).1 (by decide),
   (c4_round_trip_classes ['b', 'o', 'x', 'e', 's']).2 (by decide)⟩

/-- C4 counterexample: "cat" is a regular noun ending in none of the rule
table's suffixes, yet pluralize (singularize "cat") = "cats" ≠ "cat"; and
"apple" is a regular noun for which singularize (pluralize "apple") =
"appl" ≠ "apple".  Both round-trip compositions of the claim fail on
regular nouns. -/
theorem c4_round_trip_counterexample :
    pluralize (singularize ['c', 'a', 't']) ≠ ['c', 'a', 't']
    ∧ singularize (pluralize ['a', 'p', 'p', 'l', 'e']) ≠ ['a', 'p', 'p', 'l', 'e'] := by
  constructor
  · decide
  · decide

end DynamicSchemaGenerator

/-! ## Generic reduction helpers for the Except monad -/

theorem exceptBind_ok {α β : Type} (a : α) (f : α → Except String β) :
    (Except.ok a >>= f) = f a := rfl

theorem exceptBind_error {α β : Type} (e : String) (f : α → Except String β) :
    ((Except.error e : Except String α) >>= f) = Except.error e := rfl

theorem exceptPure {α : Type} (a : α) : (pure a : Except String α) = Except.ok a := rfl

theorem getProp_ok_of_not_null {d : JsValue} (h : d ≠ .null) (k : String) :
    ∃ v, getProp d k = .ok v := by
  cases d <;> simp [getProp] at h ⊢

namespace UniversalContentMigrator

/-- A value returned inside some by findMarkDef is never null (reading _key
of null would have thrown instead). -/
theorem findMarkDef_some_not_null {markDefs : List JsValue} {mark d : JsValue}
    (h : findMarkDef markDefs mark = .ok (some d)) : d ≠ .null := by
  induction markDefs with
  | nil => simp [findMarkDef, exceptPure] at h
  | cons hd rest ih =>
    by_cases hnull : hd = JsValue.null
    · subst hnull
      rw [findMarkDef] at h
      rw [show getProp JsValue.null "_key"
          = Except.error "Cannot read properties of null (reading _key)" from rfl] at h
      rw [exceptBind_error] at h
      simp at h
    · obtain ⟨k, hk⟩ := getProp_ok_of_not_null hnull "_key"
      rw [findMarkDef, hk, exceptBind_ok] at h
      by_cases heq : jsStrictEq k mark = true
      · simp only [heq, if_true, exceptPure] at h
        simp at h
        rw [← h]
        exact hnull
      · simp only [heq] at h
        simp at h
        exact ih h

/-- If some mark of the list resolves to a link definition (and no lookup
throws), the marks loop returns a link node wrapping a single plain text
child with the span's raw text, whatever decoration state has accumulated
on the discarded text node. -/
theorem convertSpanMarksLoop_link (markDefs : List JsValue) (spanText : JsValue)
    (marks : List JsValue)
    (hok : ∀ m ∈ marks, ∃ o, findMarkDef markDefs m = Except.ok o)
    (hlink : ∃ m ∈ marks, resolvesToLink markDefs m) :
    ∀ node, ∃ url, convertSpanMarksLoop markDefs spanText marks node
      = .ok (.obj [("type", .str "link"), ("url", url),
        ("children", .arr [.obj [("type", .str "text"), ("text", spanText)]])]) := by
  induction marks with
  | nil => simp at hlink
  | cons mark rest ih =>
    intro node
    obtain ⟨o, ho⟩ := hok mark (List.mem_cons_self mark rest)
    rw [convertSpanMarksLoop, ho, exceptBind_ok]
    cases o with
    | none =>
      have hrest : ∃ m ∈ rest, resolvesToLink markDefs m := by
        rcases hlink with ⟨m, hm, hres⟩
        rcases List.mem_cons.mp hm with rfl | hm2
        · rcases hres with ⟨d, hd, _⟩
          rw [ho] at hd
          simp at hd
        · exact ⟨m, hm2, hres⟩
      exact ih (fun m hm => hok m (List.mem_cons_of_mem _ hm)) hrest _
    | some d =>
      have hdn : d ≠ .null := findMarkDef_some_not_null ho
      obtain ⟨tv, htv⟩ := getProp_ok_of_not_null hdn "_type"
      dsimp only
      rw [htv, exceptBind_ok]
      by_cases hbranch : (truthy d && jsStrictEq tv (.str "link")) = true
      · rw [if_pos hbranch]
        obtain ⟨url, hurl⟩ := getProp_ok_of_not_null hdn "href"
        rw [hurl, exceptBind_ok]
        exact ⟨url, rfl⟩
      · rw [if_neg hbranch]
        have hrest : ∃ m ∈ rest, resolvesToLink markDefs m := by
          rcases hlink with ⟨m, hm, hres⟩
          rcases List.mem_cons.mp hm with rfl | hm2
          · rcases hres with ⟨d2, hd2, htr, tv2, htv2, hlnk⟩
            rw [ho] at hd2
            have hdd : d2 = d := by simpa using hd2.symm
            subst hdd
            rw [htv] at htv2
            have htveq : tv2 = tv := by simpa using htv2.symm
            subst htveq
            exact absurd (by simp [htr, hlnk]) hbranch
          · exact ⟨m, hm2, hres⟩
        exact ih (fun m hm => hok m (List.mem_cons_of_mem _ hm)) hrest _

/-- C6: for every span whose text is a string and whose marks array contains
at least one mark resolving to a link definition of the block's
mark-definition list (and whose mark lookups do not throw), span conversion
emits a link node wrapping exactly one plain text child carrying the span's
text — the shape of the produced node shows every co-occurring decoration
mark (bold/italic/underline/strikethrough/code) is discarded. -/
theorem c6_link_mark_takes_precedence (markDefs : List JsValue) (span : JsValue)
    (s : String) (marks : List JsValue)
    (htext : getProp span "text" = .ok (.str s))
    (hmarks : getProp span "marks" = .ok (.arr marks))
    (hok : ∀ m ∈ marks, ∃ o, findMarkDef markDefs m = Except.ok o)
    (hlink : ∃ m ∈ marks, resolvesToLink markDefs m) :
    ∃ url, convertSpanToNode markDefs span
      = .ok (.obj [("type", .str "link"), ("url", url),
        ("children", .arr [.obj [("type", .str "text"), ("text", .str s)]])]) := by
  rw [convertSpanToNode, htext, exceptBind_ok, hmarks, exceptBind_ok]
  have hne : marks.length > 0 := by
    rcases hlink with ⟨m, hm, _⟩
    exact List.length_pos.mpr (List.ne_nil_of_mem hm)
  simp only [if_pos hne]
  exact convertSpanMarksLoop_link markDefs (.str s) marks hok hlink _

/-- Witness for C6: a span with both a bold mark and a link mark emits a
link node. -/
theorem c6_link_mark_takes_precedence_witness :
    ∃ url, convertSpanToNode
      [JsValue.obj [("_key", .str "a1b2"), ("_type", .str "link"),
                    ("href", .str "https://example.dev")]]
      (JsValue.obj [("text", .str "click"),
                    ("marks", .arr [.str "strong", .str "a1b2"])])
      = .ok (.obj [("type", .str "link"), ("url", url),
        ("children", .arr [.obj [("type", .str "text"), ("text", .str "click")]])]) := by
  refine c6_link_mark_takes_precedence _ _ "click" [.str "strong", .str "a1b2"]
    rfl rfl ?_ ?_
  · intro m hm
    rcases List.mem_cons.mp hm with rfl | hm2
    · exact ⟨none, rfl⟩
    · rcases List.mem_cons.mp hm2 with rfl | hm3
      · exact ⟨some (JsValue.obj [("_key", .str "a1b2"), ("_type", .str "link"),
          ("href", .str "https://example.dev")]), rfl⟩
      · simp at hm3
  · exact ⟨.str "a1b2", by simp,
      ⟨JsValue.obj [("_key", .str "a1b2"), ("_type", .str "link"),
        ("href", .str "https://example.dev")], rfl, rfl,
        ⟨.str "link", rfl, rfl⟩⟩⟩

/-- C7: migrateAsset consults exactly the path imagesPath/sha1hash-WxH.png;
when the file is absent it returns null without attempting the upload, and
the migrateAssets loop then changes nothing: no mapping entry, no counter
change, no error; when the file is present, the upload is invoked on that
same derived path. -/
theorem c7_asset_path_derivation_and_skip (fileExists : String → Bool)
    (upload : String → SanityAssetEntry → Except String AssetResult)
    (asset : SanityAssetEntry) (imagesPath : String) (st : AssetMigrationState) :
    (fileExists (imagesPath ++ "/" ++ (asset.sha1hash ++ "-" ++ toString asset.width
        ++ "x" ++ toString asset.height ++ ".png")) = false →
      migrateAsset fileExists upload asset imagesPath = .ok none
      ∧ migrateAssetsStep fileExists upload imagesPath st asset = st)
    ∧ (fileExists (imagesPath ++ "/" ++ (asset.sha1hash ++ "-" ++ toString asset.width
        ++ "x" ++ toString asset.height ++ ".png")) = true →
      migrateAsset fileExists upload asset imagesPath
        = (upload (imagesPath ++ "/" ++ (asset.sha1hash ++ "-" ++ toString asset.width
            ++ "x" ++ toString asset.height ++ ".png")) asset).map some) := by
  constructor
  · intro h
    constructor
    · unfold migrateAsset
      simp [h]
    · unfold migrateAssetsStep migrateAsset
      simp [h]
  · intro h
    unfold migrateAsset
    simp [h]

/-- Witness for C7: the asset entry of the spec example (hash abc123,
100x200) is skipped entirely when its file is absent. -/
theorem c7_asset_path_derivation_and_skip_witness :
    migrateAssetsStep (fun _ => false) (fun _ _ => .error "unreachable")
      "sanity-export/images" {}
      { key := "abc123", sha1hash := "abc123", width := 100, height := 200,
        originalFilename := "photo.png" } = {} :=
  ((c7_asset_path_derivation_and_skip (fun _ => false) (fun _ _ => .error "unreachable")
      { key := "abc123", sha1hash := "abc123", width := 100, height := 200,
        originalFilename := "photo.png" } "sanity-export/images" {}).1 rfl).2

end UniversalContentMigrator

namespace UniversalContentMigrator

/-! ### Document-level transformation lemmas -/

section
variable (assets : List (String × AssetResult)) (componentMapping : List (String × JsValue))
variable (contentType : String) (documentId : JsValue) (strapiSchema : JsValue)

theorem step_exists {attrs : JsValue} (f : String)
    (hattrs : getProp strapiSchema "attributes" = .ok attrs)
    (hne : attrs ≠ JsValue.null)
    (acc : List (String × JsValue) × List PendingRelationship) (p : String × JsValue) :
    ∃ res, transformDocumentFieldStep assets componentMapping contentType documentId
        strapiSchema acc p = .ok res
      ∧ (p.1 ≠ f → lookupKV acc.1 f = none → lookupKV res.1 f = none)
      ∧ (p.1 = f →
          fieldDoesNotSet assets componentMapping contentType documentId strapiSchema f p.2 →
          res.1 = acc.1) := by
  obtain ⟨p1, p2⟩ := p
  unfold transformDocumentFieldStep
  by_cases hskip : p1 ∈ skipFields
  · exact ⟨acc, by simp [hskip, exceptPure], fun _ h => h, fun _ _ => rfl⟩
  · obtain ⟨w, hw⟩ := getProp_ok_of_not_null hne p1
    rw [if_neg hskip, hattrs, exceptBind_ok, hw, exceptBind_ok]
    by_cases htr : truthy w = true
    · simp only [htr, Bool.not_true, Bool.false_eq_true, if_false]
      rcases hres : transformFieldWithSchema assets componentMapping contentType
          documentId p1 p2 w acc.2 with ⟨r, pending2⟩
      cases r with
      | error e => exact ⟨(acc.1, pending2), rfl, fun _ h => h, fun _ _ => rfl⟩
      | ok tv =>
        cases tv <;>
          first
          | exact ⟨(acc.1, pending2), rfl, fun _ h => h, fun _ _ => rfl⟩
          | · refine ⟨_, rfl, ?_, ?_⟩
              · intro hne2 h
                rw [lookupKV_setKV]
                rw [if_neg (Ne.symm hne2)]
                exact h
              · intro heq hdns
                exfalso
                subst heq
                rcases hdns attrs w acc.2 hattrs hw htr with hnull2 | ⟨e, herr⟩
                · rw [hres] at hnull2
                  simp at hnull2
                · rw [hres] at herr
                  simp at herr
    · simp only [htr]
      exact ⟨acc, by simp [exceptPure], fun _ h => h, fun _ _ => rfl⟩
end

section
variable (assets : List (String × AssetResult)) (componentMapping : List (String × JsValue))
variable (contentType : String) (documentId : JsValue) (strapiSchema : JsValue)

theorem fold_exists {attrs : JsValue} (f : String)
    (hattrs : getProp strapiSchema "attributes" = .ok attrs)
    (hne : attrs ≠ JsValue.null) :
    ∀ (doc : List (String × JsValue))
      (acc : List (String × JsValue) × List PendingRelationship),
      (∀ v, (f, v) ∈ doc →
        fieldDoesNotSet assets componentMapping contentType documentId strapiSchema f v) →
      lookupKV acc.1 f = none →
      ∃ res, doc.foldlM (transformDocumentFieldStep assets componentMapping contentType
          documentId strapiSchema) acc = .ok res ∧ lookupKV res.1 f = none := by
  intro doc
  induction doc with
  | nil =>
    intro acc _ hacc
    exact ⟨acc, rfl, hacc⟩
  | cons p rest ih =>
    intro acc hcond hacc
    obtain ⟨res1, hstep, hpres, hset⟩ :=
      step_exists assets componentMapping contentType documentId strapiSchema f
        hattrs hne acc p
    have hres1 : lookupKV res1.1 f = none := by
      by_cases hpf : p.1 = f
      · rw [hset hpf (by
          have : p = (f, p.2) := by
            rw [← hpf]
          exact hcond p.2 (this ▸ List.mem_cons_self p rest))]
        exact hacc
      · exact hpres hpf hacc
    obtain ⟨res, hfold, hlook⟩ := ih res1
      (fun v hv => hcond v (List.mem_cons_of_mem _ hv)) hres1
    exact ⟨res, by rw [List.foldlM_cons, hstep, exceptBind_ok, hfold], hlook⟩
end

section
variable (assets : List (String × AssetResult)) (componentMapping : List (String × JsValue))
variable (contentType : String) (now : JsValue) (strapiSchema : JsValue)

theorem transformDoc_omits_field {attrs cfgv : JsValue} (f : String)
    (document : List (String × JsValue)) (pending : List PendingRelationship)
    (hattrs : getProp strapiSchema "attributes" = .ok attrs)
    (hcfg : getProp attrs f = .ok cfgv)
    (hpub : f ≠ "publishedAt")
    (hcond : ∀ v, (f, v) ∈ document →
      fieldDoesNotSet assets componentMapping contentType
        ((lookupKV document "_id").getD .null) strapiSchema f v) :
    ∃ payload pending2,
      transformDocumentWithSchema assets componentMapping now document strapiSchema
        contentType pending = .ok (payload, pending2)
      ∧ lookupKV payload f = none := by
  have hne : attrs ≠ JsValue.null := by
    intro h
    rw [h] at hcfg
    simp [getProp] at hcfg
  obtain ⟨res, hfold, hlook⟩ :=
    fold_exists assets componentMapping contentType
      ((lookupKV document "_id").getD .null) strapiSchema f hattrs hne document
      ([], pending) hcond (by simp [lookupKV])
  unfold transformDocumentWithSchema
  dsimp only
  rw [hfold, exceptBind_ok]
  refine ⟨_, res.2, rfl, ?_⟩
  by_cases h1 : (!truthy ((lookupKV res.1 "publishedAt").getD .null)
      && truthy ((lookupKV document "publishedAt").getD .null)) = true
  · rw [if_pos h1, lookupKV_setKV, if_neg hpub]
    exact hlook
  · rw [if_neg h1]
    by_cases h2 : (!truthy ((lookupKV res.1 "publishedAt").getD .null)) = true
    · rw [if_pos h2, lookupKV_setKV, if_neg hpub]
      exact hlook
    · rw [if_neg h2]
      exact hlook
end

end UniversalContentMigrator

namespace UniversalContentMigrator

/-! ### C9: unknown document fields are dropped -/

theorem lookupKV_filter_ne {β : Type} (l : List (String × β)) (f g : String)
    (h : g ≠ f) :
    lookupKV (l.filter (fun p => p.1 != f)) g = lookupKV l g := by
  induction l with
  | nil => simp [lookupKV]
  | cons hd t ih =>
    by_cases h1 : hd.1 = f
    · rw [List.filter_cons]
      simp only [h1, bne_self_eq_false]
      rw [show (lookupKV (hd :: t) g) = lookupKV t g from ?_]
      · exact ih
      · obtain ⟨k, v⟩ := hd
        simp only at h1
        subst h1
        simp [lookupKV, h]
    · rw [List.filter_cons]
      simp only [bne_iff_ne, ne_eq, h1, not_false_eq_true, if_true]
      obtain ⟨k, v⟩ := hd
      simp only at h1
      by_cases h2 : g = k
      · simp [lookupKV, h2]
      · simp [lookupKV, h2, ih]

section
variable (assets : List (String × AssetResult)) (componentMapping : List (String × JsValue))
variable (contentType : String) (documentId : JsValue) (strapiSchema : JsValue)

/-- A field whose schema config is falsy (in particular, absent and hence
undefined) is skipped by the per-field loop: the accumulator is returned
unchanged. -/
theorem step_skips_falsy {attrs cfgv : JsValue} (f : String)
    (hattrs : getProp strapiSchema "attributes" = .ok attrs)
    (hcfg : getProp attrs f = .ok cfgv) (hfalsy : truthy cfgv = false)
    (acc : List (String × JsValue) × List PendingRelationship) (v : JsValue) :
    transformDocumentFieldStep assets componentMapping contentType documentId
      strapiSchema acc (f, v) = .ok acc := by
  unfold transformDocumentFieldStep
  by_cases hskip : f ∈ skipFields
  · simp [hskip, exceptPure]
  · rw [if_neg hskip, hattrs, exceptBind_ok, hcfg, exceptBind_ok]
    simp [hfalsy, exceptPure]

/-- Removing the occurrences of a falsy-config field from the document does
not change the per-field fold. -/
theorem fold_filter_falsy {attrs cfgv : JsValue} (f : String)
    (hattrs : getProp strapiSchema "attributes" = .ok attrs)
    (hcfg : getProp attrs f = .ok cfgv) (hfalsy : truthy cfgv = false) :
    ∀ (doc : List (String × JsValue))
      (acc : List (String × JsValue) × List PendingRelationship),
      doc.foldlM (transformDocumentFieldStep assets componentMapping contentType
          documentId strapiSchema) acc
        = (doc.filter (fun p => p.1 != f)).foldlM
            (transformDocumentFieldStep assets componentMapping contentType
              documentId strapiSchema) acc := by
  intro doc
  induction doc with
  | nil => intro acc; rfl
  | cons p rest ih =>
    intro acc
    obtain ⟨p1, p2⟩ := p
    by_cases h1 : p1 = f
    · subst h1
      rw [List.foldlM_cons, step_skips_falsy assets componentMapping contentType
        documentId strapiSchema p1 hattrs hcfg hfalsy acc p2, exceptBind_ok]
      rw [List.filter_cons]
      simp only [bne_self_eq_false, if_false]
      exact ih acc
    · rw [List.foldlM_cons, List.filter_cons]
      simp only [bne_iff_ne, ne_eq, h1, not_false_eq_true, if_true]
      rw [List.foldlM_cons]
      cases hstep : transformDocumentFieldStep assets componentMapping contentType
          documentId strapiSchema acc (p1, p2) with
      | error e => rw [exceptBind_error, exceptBind_error]
      | ok res => rw [exceptBind_ok, exceptBind_ok]; exact ih res
end

/-- C9 (amended): for every non-system document field f other than the
publish timestamp whose name resolves to a falsy (absent) entry of the
target schema's attribute map, document transformation succeeds with a
payload not containing f, and equals the transformation of the document
with every f-entry removed — the field is dropped and processing
continues; the loop never throws for such a field.  (The original claim
fails for f = "publishedAt": the publish-state stamping rule copies a
document publishedAt into the payload even when the schema lacks that
attribute — see the counterexample.) -/
theorem c9_unknown_fields_dropped (assets : List (String × AssetResult))
    (componentMapping : List (String × JsValue)) (contentType : String)
    (now strapiSchema : JsValue) {attrs cfgv : JsValue} (f : String)
    (document : List (String × JsValue)) (pending : List PendingRelationship)
    (hattrs : getProp strapiSchema "attributes" = .ok attrs)
    (hcfg : getProp attrs f = .ok cfgv)
    (hfalsy : truthy cfgv = false)
    (hpub : f ≠ "publishedAt")
    (hskipf : f ∉ skipFields) :
    (∃ payload pending2,
      transformDocumentWithSchema assets componentMapping now document strapiSchema
        contentType pending = .ok (payload, pending2)
      ∧ lookupKV payload f = none)
    ∧ transformDocumentWithSchema assets componentMapping now document strapiSchema
        contentType pending
      = transformDocumentWithSchema assets componentMapping now
          (document.filter (fun p => p.1 != f)) strapiSchema contentType pending := by
  constructor
  · refine transformDoc_omits_field assets componentMapping contentType now
      strapiSchema f document pending hattrs hcfg hpub ?_
    intro v _ attrs' cfgv' pending' ha' hc' htr'
    rw [hattrs] at ha'
    have ha2 : attrs' = attrs := by simpa using ha'.symm
    subst ha2
    rw [hcfg] at hc'
    have hc2 : cfgv' = cfgv := by simpa using hc'.symm
    subst hc2
    rw [hfalsy] at htr'
    simp at htr'
  · have hidne : ("_id" : String) ≠ f := by
      intro he
      exact hskipf (he ▸ (by decide : ("_id" : String) ∈ skipFields))
    have hid := lookupKV_filter_ne document f "_id" hidne
    have hpubl := lookupKV_filter_ne document f "publishedAt" (Ne.symm hpub)
    unfold transformDocumentWithSchema
    dsimp only
    rw [hid, hpubl, fold_filter_falsy assets componentMapping contentType
      ((lookupKV document "_id").getD .null) strapiSchema f hattrs hcfg hfalsy
      document ([], pending)]

/-- Witness for C9: a document field "legacy" absent from the schema is
dropped from the payload. -/
theorem c9_unknown_fields_dropped_witness :
    ∃ payload pending2,
      transformDocumentWithSchema [] [] (.str "NOW")
        [("legacy", .str "x"), ("title", .str "T")]
        (JsValue.obj [("attributes", JsValue.obj [("title", JsValue.obj
          [("type", JsValue.str "string")])])]) "post" []
        = .ok (payload, pending2)
      ∧ lookupKV payload "legacy" = none :=
  (c9_unknown_fields_dropped [] [] "post" (.str "NOW")
    (JsValue.obj [("attributes", JsValue.obj [("title", JsValue.obj
      [("type", JsValue.str "string")])])]) "legacy"
    [("legacy", .str "x"), ("title", .str "T")] []
    rfl rfl rfl (by decide) (by decide)).1

/-- C9 counterexample: a publishedAt field absent from the target schema's
attribute map is not dropped — the stamping rule copies it into the
payload, so the original universally quantified claim fails at
f = "publishedAt". -/
theorem c9_counterexample_publishedAt :
    getProp (JsValue.obj [("attributes", JsValue.obj [])]) "attributes"
      = .ok (JsValue.obj [])
    ∧ getProp (JsValue.obj []) "publishedAt" = .ok JsValue.null
    ∧ transformDocumentWithSchema [] [] (.str "2026-01-01T00:00:00.000Z")
        [("publishedAt", .str "2020-05-05")] (JsValue.obj [("attributes", JsValue.obj [])])
        "post" []
      = .ok ([("publishedAt", JsValue.str "2020-05-05")], []) :=
  ⟨rfl, rfl, rfl⟩

end UniversalContentMigrator

namespace UniversalContentMigrator

/-! ### C5: unresolved media assets -/

theorem transformSingleMedia_null (assets : List (String × AssetResult)) (w : JsValue)
    (h : assetUnresolved assets w) : transformSingleMedia assets w = .ok .null := by
  rcases h with ⟨r, hr, hcase⟩
  unfold transformSingleMedia
  rw [hr, exceptBind_ok]
  rcases hcase with rfl | ⟨k, rfl, hk⟩
  · rfl
  · dsimp only
    by_cases hke : k = ""
    · simp [hke, exceptPure]
    · rcases hk with hke2 | hlook
      · exact absurd hke2 hke
      · simp [hke, hlook, exceptPure]

theorem transformMediaField_single_null (assets : List (String × AssetResult))
    (cfgv v mv : JsValue)
    (hm : getProp cfgv "multiple" = .ok mv)
    (hsm : jsStrictEq mv (.bool true) = false)
    (hw : assetUnresolved assets (singleMediaCandidate v)) :
    transformMediaField assets cfgv v = .ok .null := by
  unfold transformMediaField
  rw [hm, exceptBind_ok]
  cases v <;>
    first
    | · dsimp only
        rw [if_pos (by simp [hsm])]
        exact transformSingleMedia_null assets _ hw
    | exact transformSingleMedia_null assets _ hw

theorem transformMediaItemStep_skip (assets : List (String × AssetResult))
    (acc : List JsValue) (item : JsValue) (h : assetUnresolved assets item) :
    transformMediaItemStep assets acc item = .ok acc := by
  rcases h with ⟨r, hr, hcase⟩
  unfold transformMediaItemStep
  rw [hr, exceptBind_ok]
  rcases hcase with rfl | ⟨k, rfl, hk⟩
  · rfl
  · dsimp only
    by_cases hke : k = ""
    · simp [hke, exceptPure]
    · rcases hk with hke2 | hlook
      · exact absurd hke2 hke
      · simp [hke, hlook, exceptPure]

theorem transformMediaField_multi_empty (assets : List (String × AssetResult))
    (cfgv mv : JsValue) (items : List JsValue)
    (hm : getProp cfgv "multiple" = .ok mv)
    (hsm : jsStrictEq mv (.bool true) = true)
    (hall : ∀ item ∈ items, assetUnresolved assets item) :
    transformMediaField assets cfgv (.arr items) = .ok (.arr []) := by
  unfold transformMediaField
  rw [hm, exceptBind_ok]
  dsimp only
  rw [if_neg (by simp [hsm])]
  have hfold : ∀ (l : List JsValue), (∀ item ∈ l, assetUnresolved assets item) →
      ∀ acc : List JsValue,
      l.foldlM (transformMediaItemStep assets) acc = .ok acc := by
    intro l
    induction l with
    | nil => intro _ acc; rfl
    | cons item rest ih =>
      intro hl acc
      rw [List.foldlM_cons,
        transformMediaItemStep_skip assets acc item
          (hl item (List.mem_cons_self item rest)),
        exceptBind_ok]
      exact ih (fun x hx => hl x (List.mem_cons_of_mem _ hx)) acc
  rw [hfold items hall [], exceptBind_ok]
  rfl

/-- The media branch of transformFieldWithSchema yields null (and never an
error) for an unresolved single-media value, whatever the pending state. -/
theorem transformField_media_null (assets : List (String × AssetResult))
    (componentMapping : List (String × JsValue)) (contentType : String)
    (documentId : JsValue) (f : String) (v cfgv mv : JsValue)
    (hty : getProp cfgv "type" = .ok (.str "media"))
    (hm : getProp cfgv "multiple" = .ok mv)
    (hsm : jsStrictEq mv (.bool true) = false)
    (hw : assetUnresolved assets (singleMediaCandidate v)) :
    ∀ pending, (transformFieldWithSchema assets componentMapping contentType
      documentId f v cfgv pending).1 = .ok .null := by
  intro pending
  unfold transformFieldWithSchema
  cases v <;>
    first
    | rfl
    | · rw [hty]
        dsimp only
        rw [if_neg (by decide), if_neg (by decide), if_pos (by decide)]
        exact transformMediaField_single_null assets cfgv _ mv hm hsm hw

/-- C5 (amended): for a media attribute that is not multiple-valued, an
unresolved asset (never migrated, unextractable or empty id) makes the field
transform to null with no error, and the document payload omits the field;
for a multiple-valued media attribute receiving an array, unresolved assets
are dropped from the result, so an all-unresolved array yields the empty
array (which is kept in the payload) rather than null.  (The original
claim's "null field value in the produced payload" for every media field
fails on multiple-media fields — see the counterexample.) -/
theorem c5_unresolved_media_null (assets : List (String × AssetResult))
    (componentMapping : List (String × JsValue)) (contentType : String)
    (now strapiSchema : JsValue) {attrs cfgv mv : JsValue} (f : String)
    (document : List (String × JsValue)) (pending : List PendingRelationship)
    (hattrs : getProp strapiSchema "attributes" = .ok attrs)
    (hcfg : getProp attrs f = .ok cfgv)
    (hty : getProp cfgv "type" = .ok (.str "media"))
    (hm : getProp cfgv "multiple" = .ok mv)
    (hpub : f ≠ "publishedAt") :
    (∀ v, jsStrictEq mv (.bool true) = false →
      assetUnresolved assets (singleMediaCandidate v) →
      transformMediaField assets cfgv v = .ok .null)
    ∧ (∀ items, jsStrictEq mv (.bool true) = true →
      (∀ item ∈ items, assetUnresolved assets item) →
      transformMediaField assets cfgv (.arr items) = .ok (.arr []))
    ∧ (jsStrictEq mv (.bool true) = false →
      (∀ v, (f, v) ∈ document → assetUnresolved assets (singleMediaCandidate v)) →
      ∃ payload pending2,
        transformDocumentWithSchema assets componentMapping now document strapiSchema
          contentType pending = .ok (payload, pending2)
        ∧ lookupKV payload f = none) := by
  refine ⟨?_, ?_, ?_⟩
  · intro v hsm hw
    exact transformMediaField_single_null assets cfgv v mv hm hsm hw
  · intro items hsm hall
    exact transformMediaField_multi_empty assets cfgv mv items hm hsm hall
  · intro hsm hdoc
    refine transformDoc_omits_field assets componentMapping contentType now
      strapiSchema f document pending hattrs hcfg hpub ?_
    intro v hv attrs' cfgv' pending' ha' hc' _
    rw [hattrs] at ha'
    have ha2 : attrs' = attrs := by simpa using ha'.symm
    subst ha2
    rw [hcfg] at hc'
    have hc2 : cfgv' = cfgv := by simpa using hc'.symm
    subst hc2
    exact Or.inl (transformField_media_null assets componentMapping contentType
      ((lookupKV document "_id").getD .null) f v _ mv hty hm hsm (hdoc v hv) pending')

/-- Witness for C5: a single-media field referencing a never-migrated asset
transforms to null, and the document payload omits it. -/
theorem c5_unresolved_media_null_witness :
    transformMediaField []
      (JsValue.obj [("type", .str "media"), ("multiple", .bool false)])
      (JsValue.obj [("asset", JsValue.obj [("_ref", .str "image-abc123-100x200-png")])])
      = .ok .null
    ∧ (∃ payload pending2,
        transformDocumentWithSchema [] [] (.str "NOW")
          [("photo", JsValue.obj [("asset", JsValue.obj
            [("_ref", .str "image-abc123-100x200-png")])])]
          (JsValue.obj [("attributes", JsValue.obj [("photo", JsValue.obj
            [("type", .str "media"), ("multiple", .bool false)])])]) "post" []
          = .ok (payload, pending2)
        ∧ lookupKV payload "photo" = none) := by
  have h := c5_unresolved_media_null [] [] "post" (.str "NOW")
    (JsValue.obj [("attributes", JsValue.obj [("photo", JsValue.obj
      [("type", .str "media"), ("multiple", .bool false)])])]) "photo"
    [("photo", JsValue.obj [("asset", JsValue.obj
      [("_ref", .str "image-abc123-100x200-png")])])] []
    rfl rfl rfl rfl (by decide)
  refine ⟨?_, ?_⟩
  · exact h.1 _ rfl ⟨some "abc123", rfl, Or.inr ⟨"abc123", rfl, Or.inr rfl⟩⟩
  · refine h.2.2 rfl ?_
    intro v hv
    have hv2 : v = JsValue.obj [("asset", JsValue.obj
        [("_ref", .str "image-abc123-100x200-png")])] := by
      simpa using hv
    subst hv2
    exact ⟨some "abc123", rfl, Or.inr ⟨"abc123", rfl, Or.inr rfl⟩⟩

/-- C5 counterexample: a multiple-media field whose only referenced asset
never migrated transforms to the empty array, not null, and the produced
payload contains the field bound to that empty array — the original claim's
null-valued (or omitted) field fails here. -/
theorem c5_counterexample_multi_media :
    transformMediaField []
      (JsValue.obj [("type", .str "media"), ("multiple", .bool true)])
      (.arr [JsValue.obj [("asset", JsValue.obj
        [("_ref", .str "image-abc123-100x200-png")])]])
      = .ok (.arr [])
    ∧ (Except.ok (JsValue.arr []) : Except String JsValue) ≠ .ok .null
    ∧ transformDocumentWithSchema [] [] (.str "NOW")
        [("gallery", .arr [JsValue.obj [("asset", JsValue.obj
          [("_ref", .str "image-abc123-100x200-png")])]])]
        (JsValue.obj [("attributes", JsValue.obj [("gallery", JsValue.obj
          [("type", .str "media"), ("multiple", .bool true)])])]) "post" []
      = .ok ([("gallery", JsValue.arr []), ("publishedAt", JsValue.str "NOW")], []) := by
  refine ⟨rfl, by simp, rfl⟩

end UniversalContentMigrator

namespace UniversalContentMigrator

theorem referenceTarget_ok_of_not_null {item : JsValue} (h : item ≠ .null) :
    ∃ o, referenceTarget item = .ok o := by
  obtain ⟨ty, hty⟩ := getProp_ok_of_not_null h "_type"
  unfold referenceTarget
  rw [hty, exceptBind_ok]
  by_cases heq : jsStrictEq ty (.str "reference") = true
  · rw [if_pos heq]
    obtain ⟨r, hr⟩ := getProp_ok_of_not_null h "_ref"
    rw [hr, exceptBind_ok]
    exact ⟨_, rfl⟩
  · rw [if_neg heq]
    exact ⟨none, rfl⟩

theorem storeRelLoop_no_null (sourceType : String) (sourceId : JsValue)
    (fieldName relation : String) :
    ∀ (items : List JsValue) (pending : List PendingRelationship),
      (∀ i ∈ items, i ≠ JsValue.null) →
      storeRelLoop sourceType sourceId fieldName relation items pending
        = (pending ++ items.filterMap
            (wellFormedPending sourceType sourceId fieldName relation true), none) := by
  intro items
  induction items with
  | nil => intro pending _; simp [storeRelLoop]
  | cons item rest ih =>
    intro pending hnn
    obtain ⟨o, ho⟩ := referenceTarget_ok_of_not_null
      (hnn item (List.mem_cons_self item rest))
    rw [storeRelLoop, ho]
    cases o with
    | some r =>
      dsimp only
      rw [ih _ (fun x hx => hnn x (List.mem_cons_of_mem _ hx))]
      have hf : wellFormedPending sourceType sourceId fieldName relation true item
          = some ⟨sourceType, sourceId, fieldName, r, true, relation⟩ := by
        unfold wellFormedPending; rw [ho]
      rw [List.filterMap_cons, hf]
      simp
    | none =>
      dsimp only
      rw [ih pending (fun x hx => hnn x (List.mem_cons_of_mem _ hx))]
      have hf : wellFormedPending sourceType sourceId fieldName relation true item
          = none := by
        unfold wellFormedPending; rw [ho]
      rw [List.filterMap_cons, hf]

theorem referenceTarget_null :
    referenceTarget JsValue.null
      = .error "Cannot read properties of null (reading _type)" := rfl

theorem storeRelLoop_null_at (sourceType : String) (sourceId : JsValue)
    (fieldName relation : String) :
    ∀ (pre : List JsValue) (post : List JsValue) (pending : List PendingRelationship),
      (∀ i ∈ pre, i ≠ JsValue.null) →
      storeRelLoop sourceType sourceId fieldName relation (pre ++ JsValue.null :: post)
        pending
        = (pending ++ pre.filterMap
            (wellFormedPending sourceType sourceId fieldName relation true),
           some "Cannot read properties of null (reading _type)") := by
  intro pre
  induction pre with
  | nil =>
    intro post pending _
    rw [List.nil_append, storeRelLoop, referenceTarget_null]
    simp
  | cons item rest ih =>
    intro post pending hnn
    obtain ⟨o, ho⟩ := referenceTarget_ok_of_not_null
      (hnn item (List.mem_cons_self item rest))
    rw [List.cons_append, storeRelLoop, ho]
    cases o with
    | some r =>
      dsimp only
      rw [ih post _ (fun x hx => hnn x (List.mem_cons_of_mem _ hx))]
      have hf : wellFormedPending sourceType sourceId fieldName relation true item
          = some ⟨sourceType, sourceId, fieldName, r, true, relation⟩ := by
        unfold wellFormedPending; rw [ho]
      rw [List.filterMap_cons, hf]
      simp
    | none =>
      dsimp only
      rw [ih post pending (fun x hx => hnn x (List.mem_cons_of_mem _ hx))]
      have hf : wellFormedPending sourceType sourceId fieldName relation true item
          = none := by
        unfold wellFormedPending; rw [ho]
      rw [List.filterMap_cons, hf]

theorem jsStrictEq_str_iff (ty : JsValue) (s : String) :
    jsStrictEq ty (.str s) = true ↔ ty = .str s := by
  cases ty <;> simp [jsStrictEq]

theorem wellFormedPending_eq_some_iff (sourceType : String) (sourceId : JsValue)
    (fieldName relation : String) (b : Bool) (item : JsValue)
    (p : PendingRelationship) :
    wellFormedPending sourceType sourceId fieldName relation b item = some p ↔
      getProp item "_type" = .ok (.str "reference") ∧
      ∃ r, getProp item "_ref" = .ok r ∧ truthy r = true ∧
        p = ⟨sourceType, sourceId, fieldName, r, b, relation⟩ := by
  unfold wellFormedPending referenceTarget
  constructor
  · intro h
    cases hty : getProp item "_type" with
    | error e => rw [hty] at h; rw [exceptBind_error] at h; exact absurd h (by simp)
    | ok ty =>
      rw [hty, exceptBind_ok] at h
      by_cases heq : jsStrictEq ty (.str "reference") = true
      · rw [if_pos heq] at h
        cases hr : getProp item "_ref" with
        | error e => rw [hr, exceptBind_error] at h; exact absurd h (by simp)
        | ok r =>
          rw [hr, exceptBind_ok, exceptPure] at h
          by_cases htr : truthy r = true
          · rw [if_pos htr] at h
            simp only [Option.some.injEq] at h
            exact ⟨congrArg Except.ok ((jsStrictEq_str_iff ty "reference").mp heq),
              r, rfl, htr, h.symm⟩
          · rw [if_neg htr] at h; exact absurd h (by simp)
      · rw [if_neg heq, exceptPure] at h; exact absurd h (by simp)
  · rintro ⟨hty, r, hr, htr, hp⟩
    rw [hty, exceptBind_ok, if_pos (by rw [jsStrictEq_str_iff]), hr, exceptBind_ok,
      exceptPure, if_pos htr, hp]

theorem storeRel_arr (sourceType : String) (sourceId : JsValue)
    (fieldName relation : String) (strapiFieldConfig : JsValue)
    (hrel : getProp strapiFieldConfig "relation" = .ok (.str relation))
    (items : List JsValue) (pending : List PendingRelationship) :
    storeRelationshipForProcessing sourceType sourceId fieldName (.arr items)
        strapiFieldConfig pending
      = storeRelLoop sourceType sourceId fieldName relation items pending := by
  unfold storeRelationshipForProcessing
  rw [hrel]

theorem storeRelSingle_eq (sourceType : String) (sourceId : JsValue)
    (fieldName relation : String) (v : JsValue)
    (pending : List PendingRelationship) (hnnull : v ≠ JsValue.null) :
    storeRelSingle sourceType sourceId fieldName relation v pending
      = (pending ++
          (wellFormedPending sourceType sourceId fieldName relation false v).toList,
         none) := by
  obtain ⟨o, ho⟩ := referenceTarget_ok_of_not_null hnnull
  rw [storeRelSingle, ho]
  cases o with
  | some r =>
    dsimp only
    have hwf : wellFormedPending sourceType sourceId fieldName relation false v
        = some ⟨sourceType, sourceId, fieldName, r, false, relation⟩ := by
      unfold wellFormedPending; rw [ho]
    rw [hwf]; rfl
  | none =>
    dsimp only
    have hwf : wellFormedPending sourceType sourceId fieldName relation false v
        = none := by
      unfold wellFormedPending; rw [ho]
    rw [hwf]; simp

theorem storeRel_single (sourceType : String) (sourceId : JsValue)
    (fieldName relation : String) (strapiFieldConfig : JsValue)
    (hrel : getProp strapiFieldConfig "relation" = .ok (.str relation))
    (v : JsValue) (pending : List PendingRelationship)
    (hnarr : ∀ items, v ≠ .arr items) (hnnull : v ≠ .null) :
    storeRelationshipForProcessing sourceType sourceId fieldName v
        strapiFieldConfig pending
      = (pending ++
          (wellFormedPending sourceType sourceId fieldName relation false v).toList,
         none) := by
  unfold storeRelationshipForProcessing
  rw [hrel]
  cases v with
  | null => exact absurd rfl hnnull
  | arr items => exact absurd rfl (hnarr items)
  | bool b => exact storeRelSingle_eq _ _ _ _ _ _ hnnull
  | num n => exact storeRelSingle_eq _ _ _ _ _ _ hnnull
  | str s => exact storeRelSingle_eq _ _ _ _ _ _ hnnull
  | obj props => exact storeRelSingle_eq _ _ _ _ _ _ hnnull

/-- C10: for every relation-typed field value handed to the pending queue
(config with a string relation kind), entries are enqueued exactly for
well-formed reference items (_type strictly equal to "reference" and a
truthy _ref), and the stored isArray flag is true for a raw array value and
false otherwise, independently of the declared relation kind; but a null
item inside an array is NOT skipped silently: it throws a TypeError,
keeping the entries pushed before it. -/
theorem c10_pending_enqueue (sourceType : String) (sourceId : JsValue)
    (fieldName relation : String) (strapiFieldConfig : JsValue)
    (hrel : getProp strapiFieldConfig "relation" = .ok (.str relation)) :
    (∀ (items : List JsValue) (pending : List PendingRelationship),
        (∀ i ∈ items, i ≠ JsValue.null) →
        storeRelationshipForProcessing sourceType sourceId fieldName
            (.arr items) strapiFieldConfig pending
          = (pending ++ items.filterMap
              (wellFormedPending sourceType sourceId fieldName relation true),
             none))
    ∧ (∀ (v : JsValue) (pending : List PendingRelationship),
        (∀ items, v ≠ .arr items) → v ≠ .null →
        storeRelationshipForProcessing sourceType sourceId fieldName v
            strapiFieldConfig pending
          = (pending ++
              (wellFormedPending sourceType sourceId fieldName relation
                false v).toList,
             none))
    ∧ (∀ (b : Bool) (item : JsValue) (p : PendingRelationship),
        wellFormedPending sourceType sourceId fieldName relation b item
            = some p ↔
          getProp item "_type" = .ok (.str "reference") ∧
          ∃ r, getProp item "_ref" = .ok r ∧ truthy r = true ∧
            p = ⟨sourceType, sourceId, fieldName, r, b, relation⟩)
    ∧ (∀ (pre post : List JsValue) (pending : List PendingRelationship),
        (∀ i ∈ pre, i ≠ JsValue.null) →
        storeRelationshipForProcessing sourceType sourceId fieldName
            (.arr (pre ++ JsValue.null :: post)) strapiFieldConfig pending
          = (pending ++ pre.filterMap
              (wellFormedPending sourceType sourceId fieldName relation true),
             some "Cannot read properties of null (reading _type)")) := by
  refine ⟨?_, ?_, ?_, ?_⟩
  · intro items pending hnn
    rw [storeRel_arr sourceType sourceId fieldName relation strapiFieldConfig
      hrel items pending]
    exact storeRelLoop_no_null sourceType sourceId fieldName relation items
      pending hnn
  · intro v pending hnarr hnnull
    exact storeRel_single sourceType sourceId fieldName relation
      strapiFieldConfig hrel v pending hnarr hnnull
  · intro b item p
    exact wellFormedPending_eq_some_iff sourceType sourceId fieldName relation
      b item p
  · intro pre post pending hnn
    rw [storeRel_arr sourceType sourceId fieldName relation strapiFieldConfig
      hrel _ pending]
    exact storeRelLoop_null_at sourceType sourceId fieldName relation pre post
      pending hnn

/-- C10 witness: concrete runs of all three positive clauses. -/
theorem c10_pending_enqueue_witness :
    getProp (JsValue.obj [("relation", JsValue.str "oneToMany")]) "relation"
        = .ok (.str "oneToMany")
    ∧ storeRelationshipForProcessing "post" (.str "p1") "authors"
        (.arr [JsValue.obj [("_type", .str "reference"), ("_ref", .str "a1")],
               JsValue.str "junk",
               JsValue.obj [("_type", .str "reference"), ("_ref", .str "")]])
        (JsValue.obj [("relation", JsValue.str "oneToMany")]) []
      = ([⟨"post", .str "p1", "authors", .str "a1", true, "oneToMany"⟩], none)
    ∧ storeRelationshipForProcessing "post" (.str "p1") "editor"
        (JsValue.obj [("_type", .str "reference"), ("_ref", .str "e9")])
        (JsValue.obj [("relation", JsValue.str "oneToMany")]) []
      = ([⟨"post", .str "p1", "editor", .str "e9", false, "oneToMany"⟩], none) := by
  have h := c10_pending_enqueue "post" (.str "p1") "authors" "oneToMany"
    (JsValue.obj [("relation", JsValue.str "oneToMany")]) rfl
  have h2 := c10_pending_enqueue "post" (.str "p1") "editor" "oneToMany"
    (JsValue.obj [("relation", JsValue.str "oneToMany")]) rfl
  refine ⟨rfl, ?_, ?_⟩
  · rw [h.1 _ [] (by intro i hi; fin_cases hi <;> simp)]
    rfl
  · rw [h2.2.1 _ [] (by intro items h; cases h) (by intro h; cases h)]
    rfl

/-- C10 counterexample to "malformed or non-reference items are skipped
silently without error": a null item throws a TypeError mid-loop; the push
performed before it persists and the later well-formed item is lost. -/
theorem c10_counterexample_null_item :
    storeRelationshipForProcessing "post" (.str "p1") "authors"
        (.arr [JsValue.obj [("_type", .str "reference"), ("_ref", .str "a1")],
               JsValue.null,
               JsValue.obj [("_type", .str "reference"), ("_ref", .str "a2")]])
        (JsValue.obj [("relation", JsValue.str "oneToMany")]) []
      = ([⟨"post", .str "p1", "authors", .str "a1", true, "oneToMany"⟩],
         some "Cannot read properties of null (reading _type)") := rfl

end UniversalContentMigrator

namespace UniversalContentMigrator

theorem jsIncludes_false_countP {ids : List JsValue} {t : JsValue}
    (h : jsIncludes ids t = false) :
    ids.countP (fun y => jsStrictEq y t) = 0 := by
  rw [List.countP_eq_zero]
  intro x hx
  unfold jsIncludes at h
  rw [List.any_eq_false] at h
  simpa using h x hx

theorem countP_mergeRelationIds (ids : List JsValue) (t t' : JsValue)
    (h : ids.countP (fun y => jsStrictEq y t') ≤ 1) :
    (mergeRelationIds ids t).countP (fun y => jsStrictEq y t') ≤ 1 := by
  unfold mergeRelationIds
  by_cases hin : jsIncludes ids t = true
  · rw [if_pos hin]; exact h
  · rw [if_neg hin, List.countP_append]
    rw [Bool.not_eq_true] at hin
    by_cases ht : jsStrictEq t t' = true
    · have h0 : ids.countP (fun y => jsStrictEq y t') = 0 := by
        have hcg : ids.countP (fun y => jsStrictEq y t')
            = ids.countP (fun y => jsStrictEq y t) := by
          apply List.countP_congr
          intro x _
          rw [jsStrictEq_congr ht x]
        rw [hcg]
        exact jsIncludes_false_countP hin
      rw [h0]
      simp [List.countP, List.countP.go, ht]
    · have h1 : List.countP (fun y => jsStrictEq y t') [t] = 0 := by
        simp [List.countP, List.countP.go, ht]
      rw [h1]
      simpa using h

theorem mergeRelationIds_spec (ids : List JsValue) (t : JsValue) :
    (jsIncludes ids t = true → mergeRelationIds ids t = ids) ∧
    (jsIncludes ids t = false → mergeRelationIds ids t = ids ++ [t]) := by
  unfold mergeRelationIds
  constructor
  · intro h; rw [if_pos h]
  · intro h; rw [if_neg (by rw [h]; exact Bool.false_ne_true)]

theorem mergeRelationIds_idem (ids : List JsValue) (t : JsValue)
    (ht : jsStrictEq t t = true) :
    mergeRelationIds (mergeRelationIds ids t) t = mergeRelationIds ids t := by
  by_cases hin : jsIncludes ids t = true
  · rw [(mergeRelationIds_spec ids t).1 hin, (mergeRelationIds_spec ids t).1 hin]
  · rw [Bool.not_eq_true] at hin
    rw [(mergeRelationIds_spec ids t).2 hin]
    have h2 : jsIncludes (ids ++ [t]) t = true := by
      unfold jsIncludes
      rw [List.any_append]
      simp [jsIncludes, ht]
    rw [(mergeRelationIds_spec (ids ++ [t]) t).1 h2]

theorem step_preserves_serverOk (entities : List (String × EntityRecord))
    (server : List (String × List (String × JsValue)))
    (r : PendingRelationship) (hr : r.isArray = true)
    (hf : r.fieldName ≠ "attributes") (hs : serverOk server) :
    serverOk (processRelationshipStep entities server r) := by
  unfold processRelationshipStep
  dsimp only
  cases hsi : r.sourceId
  case str s =>
    dsimp only
    cases hse : lookupKV entities s with
    | none =>
      cases hti : r.targetId <;> dsimp only <;> exact hs
    | some sourceEntity =>
      cases hti : r.targetId
      case str t =>
        dsimp only
        cases hte : lookupKV entities t with
        | none => exact hs
        | some targetEntity =>
          dsimp only
          by_cases hguard : (!truthy (jsOr sourceEntity.documentId sourceEntity.strapiId)
              || !truthy (jsOr targetEntity.documentId targetEntity.strapiId)) = true
          · rw [if_pos hguard]; exact hs
          · rw [if_neg hguard]
            cases hcd : lookupKV server ("/api/" ++ pluralizeS r.sourceType ++ "/"
                ++ jsToString (jsOr sourceEntity.documentId sourceEntity.strapiId)) with
            | none => exact hs
            | some currentData =>
              dsimp only
              have hcdok : recordOk currentData := hs _ (lookupKV_mem hcd)
              rw [hcdok.1]
              rw [if_neg Bool.false_ne_true, hr, if_pos rfl]
              intro e he
              rcases mem_setKV he with heq | hmem
              · subst heq
                dsimp only
                constructor
                · rw [lookupKV_eraseKV_ne _ _ _ (by decide),
                    lookupKV_eraseKV_ne _ _ _ (by decide),
                    lookupKV_eraseKV_ne _ _ _ (by decide),
                    lookupKV_eraseKV_ne _ _ _ (by decide),
                    lookupKV_eraseKV_ne _ _ _ (by decide),
                    lookupKV_setKV]
                  rw [if_neg (fun hh => hf hh.symm)]
                  exact hcdok.1
                · intro p hp l hpl
                  have hp2 := mem_eraseKV (mem_eraseKV (mem_eraseKV (mem_eraseKV
                    (mem_eraseKV hp))))
                  rcases mem_setKV hp2 with hpe | hpc
                  · subst hpe
                    simp only at hpl
                    cases hpl
                    intro u
                    apply countP_mergeRelationIds
                    cases hcur : lookupKV currentData r.fieldName with
                    | none => simp
                    | some cur =>
                      cases cur with
                      | arr l0 =>
                        have hb : arrBounded l0 :=
                          hcdok.2 _ (lookupKV_mem hcur) l0 rfl
                        simpa using hb u
                      | null => simp
                      | bool b => simp
                      | num n => simp
                      | str s2 => simp
                      | obj props => simp
                  · exact hcdok.2 p hpc l hpl
              · exact hs _ hmem
      all_goals (dsimp only; exact hs)
  all_goals (dsimp only; exact hs)

theorem fold_preserves_serverOk (entities : List (String × EntityRecord))
    (P : List PendingRelationship)
    (hP : ∀ r ∈ P, r.isArray = true ∧ r.fieldName ≠ "attributes") :
    ∀ server, serverOk server →
      serverOk (processPendingRelationships entities server P) := by
  induction P with
  | nil => intro server hs; exact hs
  | cons r rest ih =>
    intro server hs
    unfold processPendingRelationships
    rw [List.foldl_cons]
    have hstep := step_preserves_serverOk entities server r
      (hP r (List.mem_cons_self r rest)).1
      (hP r (List.mem_cons_self r rest)).2 hs
    exact ih (fun x hx => hP x (List.mem_cons_of_mem _ hx)) _ hstep

/-- C3: the resolver's per-relationship resolution is idempotent for
array-valued relations: mergeRelationIds appends the target id only if not
already present (and is idempotent on strictly self-equal ids), and running
processPendingRelationships once or twice over any pending set of
array-valued relations (on fields other than attributes) keeps every
array-valued relation field free of duplicate target-id occurrences. -/
theorem c3_resolver_idempotent (entities : List (String × EntityRecord))
    (server : List (String × List (String × JsValue)))
    (P : List PendingRelationship)
    (hP : ∀ r ∈ P, r.isArray = true ∧ r.fieldName ≠ "attributes")
    (hs : serverOk server) :
    (∀ (ids : List JsValue) (t : JsValue),
        (jsIncludes ids t = true → mergeRelationIds ids t = ids) ∧
        (jsIncludes ids t = false → mergeRelationIds ids t = ids ++ [t]))
    ∧ (∀ (ids : List JsValue) (t : JsValue), jsStrictEq t t = true →
        mergeRelationIds (mergeRelationIds ids t) t = mergeRelationIds ids t)
    ∧ serverOk (processPendingRelationships entities server P)
    ∧ serverOk (processPendingRelationships entities
        (processPendingRelationships entities server P) P) := by
  refine ⟨mergeRelationIds_spec, mergeRelationIds_idem, ?_, ?_⟩
  · exact fold_preserves_serverOk entities P hP server hs
  · exact fold_preserves_serverOk entities P hP _
      (fold_preserves_serverOk entities P hP server hs)

/-- C3 witness: a concrete store, entity map and pending set satisfying the
hypotheses. -/
theorem c3_resolver_idempotent_witness :
    ((∀ r ∈ [(⟨"post", .str "p1", "authors", .str "a1", true,
          "oneToMany"⟩ : PendingRelationship)],
        r.isArray = true ∧ r.fieldName ≠ "attributes")
      ∧ serverOk [("/api/posts/1",
          [("title", JsValue.str "Hello"), ("attributes", JsValue.null)])])
    ∧ serverOk (processPendingRelationships
        [("p1", ⟨JsValue.str "1", JsValue.null, "post"⟩),
         ("a1", ⟨JsValue.str "9", JsValue.null, "author"⟩)]
        [("/api/posts/1",
          [("title", JsValue.str "Hello"), ("attributes", JsValue.null)])]
        [⟨"post", .str "p1", "authors", .str "a1", true, "oneToMany"⟩]) := by
  have hP : ∀ r ∈ [(⟨"post", .str "p1", "authors", .str "a1", true,
        "oneToMany"⟩ : PendingRelationship)],
      r.isArray = true ∧ r.fieldName ≠ "attributes" := by
    intro r hr
    rcases List.mem_singleton.mp hr with rfl
    exact ⟨rfl, by decide⟩
  have hs : serverOk [("/api/posts/1",
      [("title", JsValue.str "Hello"), ("attributes", JsValue.null)])] := by
    intro e he
    rcases List.mem_singleton.mp he with rfl
    refine ⟨rfl, ?_⟩
    intro p hp l hpl
    rcases List.mem_cons.mp hp with rfl | hp2
    · cases hpl
    · rcases List.mem_singleton.mp hp2 with rfl
      cases hpl
  exact ⟨⟨hP, hs⟩,
    (c3_resolver_idempotent
      [("p1", ⟨JsValue.str "1", JsValue.null, "post"⟩),
       ("a1", ⟨JsValue.str "9", JsValue.null, "author"⟩)]
      [("/api/posts/1",
        [("title", JsValue.str "Hello"), ("attributes", JsValue.null)])]
      [⟨"post", .str "p1", "authors", .str "a1", true, "oneToMany"⟩]
      hP hs).2.2.1⟩

end UniversalContentMigrator

namespace DynamicSchemaGenerator

theorem mem_addToSet (s : List String) (x y : String) :
    y ∈ addToSet s x ↔ y ∈ s ∨ y = x := by
  unfold addToSet
  by_cases h : s.contains x = true
  · rw [if_pos h]
    constructor
    · exact Or.inl
    · rintro (hy | rfl)
      · exact hy
      · simpa using h
  · rw [if_neg h]
    simp [List.mem_append]

theorem processOrganizedFile_singletonTypes (st : GenState)
    (it : OrganizedItem) :
    (processOrganizedFile st it).singletonTypes =
      if isSchemaSourceFile it.file = true
          ∧ markerApplies it.folder it.file = true then
        match it.parsed with
        | some si => addToSet st.singletonTypes si.name
        | none => st.singletonTypes
      else st.singletonTypes := by
  unfold processOrganizedFile
  cases hp : it.parsed with
  | none => split_ifs <;> rfl
  | some si =>
    dsimp only
    split_ifs <;> first | rfl | tauto

theorem mem_processOrganizedFile (st : GenState) (it : OrganizedItem)
    (x : String) :
    x ∈ (processOrganizedFile st it).singletonTypes ↔
      x ∈ st.singletonTypes ∨
        (isSchemaSourceFile it.file = true
          ∧ markerApplies it.folder it.file = true
          ∧ ∃ si, it.parsed = some si ∧ si.name = x) := by
  rw [processOrganizedFile_singletonTypes]
  by_cases h : isSchemaSourceFile it.file = true
      ∧ markerApplies it.folder it.file = true
  · rw [if_pos h]
    cases hp : it.parsed with
    | none => simp [hp, h]
    | some si => simp [hp, h, mem_addToSet, eq_comm]
  · rw [if_neg h]
    constructor
    · exact Or.inl
    · rintro (hx | ⟨h1, h2, _⟩)
      · exact hx
      · exact absurd ⟨h1, h2⟩ h

theorem mem_parseOrganizedSchemas (items : List OrganizedItem) :
    ∀ (st : GenState) (x : String),
      x ∈ (parseOrganizedSchemas st items).singletonTypes ↔
        x ∈ st.singletonTypes ∨
          ∃ it ∈ items, isSchemaSourceFile it.file = true
            ∧ markerApplies it.folder it.file = true
            ∧ ∃ si, it.parsed = some si ∧ si.name = x := by
  induction items with
  | nil => intro st x; simp [parseOrganizedSchemas]
  | cons it rest ih =>
    intro st x
    unfold parseOrganizedSchemas at *
    rw [List.foldl_cons]
    rw [ih (processOrganizedFile st it) x, mem_processOrganizedFile]
    constructor
    · rintro ((hx | hmark) | ⟨it2, hit2, h2⟩)
      · exact Or.inl hx
      · exact Or.inr ⟨it, List.mem_cons_self it rest, hmark⟩
      · exact Or.inr ⟨it2, List.mem_cons_of_mem _ hit2, h2⟩
    · rintro (hx | ⟨it2, hit2, h2⟩)
      · exact Or.inl (Or.inl hx)
      · rcases List.mem_cons.mp hit2 with rfl | hrest
        · exact Or.inl (Or.inr h2)
        · exact Or.inr ⟨it2, hrest, h2⟩

theorem processFlatFile_singletonTypes (st : GenState) (it : FlatItem) :
    (processFlatFile st it).singletonTypes =
      if (isSchemaSourceFile it.file && it.file != "index.ts"
            && it.file != "index.js") = true
          ∧ decide (List.IsInfix ".singleton.".toList it.file.toList)
              = true then
        match it.parsed with
        | some si => addToSet st.singletonTypes si.name
        | none => st.singletonTypes
      else st.singletonTypes := by
  unfold processFlatFile
  cases hp : it.parsed with
  | none => split_ifs <;> rfl
  | some si =>
    dsimp only
    split_ifs <;> first | rfl | tauto

theorem mem_processFlatFile (st : GenState) (it : FlatItem) (x : String) :
    x ∈ (processFlatFile st it).singletonTypes ↔
      x ∈ st.singletonTypes ∨
        ((isSchemaSourceFile it.file && it.file != "index.ts"
            && it.file != "index.js") = true
          ∧ decide (List.IsInfix ".singleton.".toList it.file.toList) = true
          ∧ ∃ si, it.parsed = some si ∧ si.name = x) := by
  rw [processFlatFile_singletonTypes]
  by_cases h : (isSchemaSourceFile it.file && it.file != "index.ts"
      && it.file != "index.js") = true
      ∧ decide (List.IsInfix ".singleton.".toList it.file.toList) = true
  · rw [if_pos h]
    cases hp : it.parsed with
    | none => simp [hp, h]
    | some si =>
      have h2 : ['.', 's', 'i', 'n', 'g', 'l', 'e', 't', 'o', 'n', '.']
          <:+: it.file.data := of_decide_eq_true h.2
      simp [hp, h.1, h2, mem_addToSet, eq_comm]
  · rw [if_neg h]
    constructor
    · exact Or.inl
    · rintro (hx | ⟨h1, h2, _⟩)
      · exact hx
      · exact absurd ⟨h1, h2⟩ h

theorem mem_parseFlatSchemas (items : List FlatItem) :
    ∀ (st : GenState) (x : String),
      x ∈ (parseFlatSchemas st items).singletonTypes ↔
        x ∈ st.singletonTypes ∨
          ∃ it ∈ items, (isSchemaSourceFile it.file && it.file != "index.ts"
              && it.file != "index.js") = true
            ∧ decide (List.IsInfix ".singleton.".toList it.file.toList) = true
            ∧ ∃ si, it.parsed = some si ∧ si.name = x := by
  induction items with
  | nil => intro st x; simp [parseFlatSchemas]
  | cons it rest ih =>
    intro st x
    unfold parseFlatSchemas at *
    rw [List.foldl_cons]
    rw [ih (processFlatFile st it) x, mem_processFlatFile]
    constructor
    · rintro ((hx | hmark) | ⟨it2, hit2, h2⟩)
      · exact Or.inl hx
      · exact Or.inr ⟨it, List.mem_cons_self it rest, hmark⟩
      · exact Or.inr ⟨it2, List.mem_cons_of_mem _ hit2, h2⟩
    · rintro (hx | ⟨it2, hit2, h2⟩)
      · exact Or.inl (Or.inl hx)
      · rcases List.mem_cons.mp hit2 with rfl | hrest
        · exact Or.inl (Or.inr h2)
        · exact Or.inr ⟨it2, hrest, h2⟩

theorem analyzeExportedData_singletonTypes (st : GenState)
    (types : List String) :
    (analyzeExportedData st types).singletonTypes = st.singletonTypes := rfl

theorem convertToStrapiSchema_kind (relationships : RelationshipsMap)
    (st : GenState) (sanitySchema : SchemaInfo) :
    getProp (convertToStrapiSchema relationships st sanitySchema).1 "kind"
      = .ok (.str (if st.singletonTypes.contains sanitySchema.name
          then "singleType" else "collectionType"))
    ∧ getProp (convertToStrapiSchema relationships st sanitySchema).1
        "collectionName"
      = .ok (.str (if st.singletonTypes.contains sanitySchema.name
          then sanitySchema.name else pluralizeS sanitySchema.name)) := by
  unfold convertToStrapiSchema
  dsimp only
  constructor <;> simp [getProp, lookupKV]

/-- C8: a type is emitted as a singleType schema if and only if it is in the
singleton allowlist; the allowlist is populated only by the folder and
filename markers of the two schema-recovery paths, and analyzeExportedData
(whatever the document counts, including count 1) never changes it. -/
theorem c8_singleton_allowlist_only :
    (∀ (st : GenState) (types : List String),
        (analyzeExportedData st types).singletonTypes = st.singletonTypes)
    ∧ (∀ (relationships : RelationshipsMap) (st : GenState)
        (sanitySchema : SchemaInfo),
        getProp (convertToStrapiSchema relationships st sanitySchema).1 "kind"
          = .ok (.str (if st.singletonTypes.contains sanitySchema.name
              then "singleType" else "collectionType")))
    ∧ (∀ (items : List OrganizedItem) (st : GenState) (x : String),
        x ∈ (parseOrganizedSchemas st items).singletonTypes ↔
          x ∈ st.singletonTypes ∨
            ∃ it ∈ items, isSchemaSourceFile it.file = true
              ∧ markerApplies it.folder it.file = true
              ∧ ∃ si, it.parsed = some si ∧ si.name = x)
    ∧ (∀ (items : List FlatItem) (st : GenState) (x : String),
        x ∈ (parseFlatSchemas st items).singletonTypes ↔
          x ∈ st.singletonTypes ∨
            ∃ it ∈ items, (isSchemaSourceFile it.file
                && it.file != "index.ts" && it.file != "index.js") = true
              ∧ decide (List.IsInfix ".singleton.".toList it.file.toList)
                  = true
              ∧ ∃ si, it.parsed = some si ∧ si.name = x) :=
  ⟨analyzeExportedData_singletonTypes,
   fun relationships st sanitySchema =>
     (convertToStrapiSchema_kind relationships st sanitySchema).1,
   fun items st x => mem_parseOrganizedSchemas items st x,
   fun items st x => mem_parseFlatSchemas items st x⟩

end DynamicSchemaGenerator

